import Mathlib

/-!
Adafruit CST8XX capacitive touch driver

A shallow embedding of `Adafruit_CST8XX.h` / `Adafruit_CST8XX.cpp`.

* Machine integers are `Nat` (unsigned) and `Int` (signed) with explicit
  reductions modulo `2^8` / `2^16` wherever the source stores into a narrower
  type.
* The driver object is a record; every member function takes the record and
  returns the updated record together with its result.
* Dereferencing the null device pointer, indexing outside an array and
  casting an out-of-range integer to `Events` are undefined in the source:
  the embedding returns `none` there, so `= some _` in a theorem says that
  none of them happens.
* The two-wire bus is outside the repository.  It is a parameter: a record of
  two functions that decide, from the whole transaction history, whether a
  probe is acknowledged and which bytes a read delivers.
-/

namespace CST8XX

/-! ## Constants of `Adafruit_CST8XX.h` -/

def CST8XX_DEFAULT_ADDR : Nat := 0x15
def CST8XX_REG_NUMTOUCHES : Nat := 0x02
def CST8XX_REG_TOUCHDATA : Nat := 0x03
def CST8XX_REG_FIRMVERS : Nat := 0xA6
def CST8XX_REG_CHIPTYPE : Nat := 0xAA
def CST826_CHIPID : Nat := 0x11
def CST816S_CHIPID : Nat := 0xB4

/-- Capacity of the per-touch arrays (`#define MAX_TOUCHES 5`). -/
abbrev MAX_TOUCHES : Nat := 5

/-- The enumeration `enum Events { PRESS = 0, RELEASE, TOUCHING, NONE }`. -/
inductive Events where
  | PRESS
  | RELEASE
  | TOUCHING
  | NONE
deriving DecidableEq, Repr

/-- Numeric value of an enumerator. -/
def Events.toNat : Events → Nat
  | .PRESS => 0
  | .RELEASE => 1
  | .TOUCHING => 2
  | .NONE => 3

/-- The cast `(Events)v`; defined only for the values of the enumeration. -/
def Events.ofNat? : Nat → Option Events
  | 0 => some .PRESS
  | 1 => some .RELEASE
  | 2 => some .TOUCHING
  | 3 => some .NONE
  | _ => none

/-! ## The bus transport (external collaborator) -/

/-- One transaction seen on the two-wire bus. -/
inductive Txn where
  | probe (addr : Nat)
  | write (addr : Nat) (bytes : List Nat)
  | write_then_read (addr : Nat) (bytes : List Nat) (read_len : Nat)
deriving DecidableEq, Repr

/-- Modelled from the spec: the two-wire bus (`TwoWire`, not part of this
repository).  `ack` and `rx` are the behaviour of whatever is attached to the
bus, as functions of the transaction history up to and including the current
transaction; `rx h j` is the byte at position `j` of the read that ends
history `h`.  `log` is the history so far. -/
structure TwoWire where
  ack : List Txn → Bool
  rx : List Txn → Nat → Nat
  log : List Txn

/-- Modelled from the spec: `Adafruit_I2CDevice` (library `Adafruit_BusIO`, not
part of this repository), a bus bound to one target address. -/
structure Adafruit_I2CDevice where
  addr : Nat
  wire : TwoWire

/-- Modelled from the spec: `probe(address) -> bool`, the presence probe done
by `Adafruit_I2CDevice::begin()`. -/
def Adafruit_I2CDevice.begin (dev : Adafruit_I2CDevice) :
    Adafruit_I2CDevice × Bool :=
  let log := dev.wire.log ++ [Txn.probe dev.addr]
  ({ dev with wire := { dev.wire with log := log } }, dev.wire.ack log)

/-- Modelled from the spec: `write(buffer, len)`. -/
def Adafruit_I2CDevice.write (dev : Adafruit_I2CDevice) (buffer : List Nat)
    (len : Nat) : Adafruit_I2CDevice :=
  let log := dev.wire.log ++ [Txn.write dev.addr (buffer.take len)]
  { dev with wire := { dev.wire with log := log } }

/-- Modelled from the spec:
`write_then_read(write_buffer, write_len, read_buffer, read_len)`, one
combined transaction.  The first `read_len` cells of `read_buffer` receive the
bytes delivered by the bus, the other cells keep their content; the updated
read buffer is returned.  The delivered bytes are arbitrary (chosen by `rx`),
which also covers a failed transaction that leaves stale bytes behind. -/
def Adafruit_I2CDevice.write_then_read (dev : Adafruit_I2CDevice)
    (write_buffer : List Nat) (write_len : Nat) (read_buffer : List Nat)
    (read_len : Nat) : Adafruit_I2CDevice × List Nat :=
  let log := dev.wire.log ++
    [Txn.write_then_read dev.addr (write_buffer.take write_len) read_len]
  ({ dev with wire := { dev.wire with log := log } },
   (List.range read_len).map (fun j => dev.wire.rx log j % 256) ++
     read_buffer.drop read_len)

/-! ## `TS_Point` -/

/-- The class `TS_Point`: `int16_t x, y, z; uint8_t id; enum Events event`. -/
structure TS_Point where
  x : Int
  y : Int
  z : Int
  id : Nat
  event : Events
deriving DecidableEq, Repr

/-- Conversion of an unsigned value to `int16_t` (two's complement wrap). -/
def toInt16 (v : Nat) : Int :=
  if v % 65536 < 32768 then ((v % 65536 : Nat) : Int)
  else ((v % 65536 : Nat) : Int) - 65536

/-- The constructor
`TS_Point(int16_t x, int16_t y, int16_t z, uint8_t id = 0, enum Events event = NONE)`. -/
def TS_Point.new (_x _y _z : Int) (_id : Nat := 0) (_event : Events := Events.NONE) :
    TS_Point :=
  { x := _x, y := _y, z := _z, id := _id, event := _event }

/-- The member `bool TS_Point::operator==(TS_Point p1)`. -/
def TS_Point.eq (self p1 : TS_Point) : Bool :=
  (p1.x == self.x) && (p1.y == self.y) && (p1.z == self.z) && (p1.id == self.id)

/-- The member `bool TS_Point::operator!=(TS_Point p1)`. -/
def TS_Point.ne (self p1 : TS_Point) : Bool :=
  (p1.x != self.x) || (p1.y != self.y) || (p1.z != self.z) || (p1.id != self.id)

/-! ## `Adafruit_CST8XX` -/

/-- The data members of class `Adafruit_CST8XX`.  The arrays have the fixed
capacity `MAX_TOUCHES`. -/
structure Adafruit_CST8XX where
  i2c_dev : Option Adafruit_I2CDevice
  touches : Nat
  touchX : Fin MAX_TOUCHES → Nat
  touchY : Fin MAX_TOUCHES → Nat
  touchID : Fin MAX_TOUCHES → Nat
  event : Fin MAX_TOUCHES → Events

/-- Checked array read `a[i]`. -/
def aget {α : Type} (a : Fin MAX_TOUCHES → α) (i : Nat) : Option α :=
  if h : i < MAX_TOUCHES then some (a ⟨i, h⟩) else none

/-- Checked array write `a[i] = v`. -/
def aset {α : Type} (a : Fin MAX_TOUCHES → α) (i : Nat) (v : α) :
    Option (Fin MAX_TOUCHES → α) :=
  if h : i < MAX_TOUCHES then some (Function.update a ⟨i, h⟩ v) else none

/-- The member `uint8_t readRegister8(uint8_t reg)`. -/
def readRegister8 (self : Adafruit_CST8XX) (reg : Nat) :
    Option (Adafruit_CST8XX × Nat) := do
  let buffer := [reg]
  let dev ← self.i2c_dev
  let (dev, buffer) := dev.write_then_read buffer 1 buffer 1
  let b0 ← buffer[0]?
  pure ({ self with i2c_dev := some dev }, b0)

/-- The member `void writeRegister8(uint8_t reg, uint8_t val)`. -/
def writeRegister8 (self : Adafruit_CST8XX) (reg val : Nat) :
    Option Adafruit_CST8XX := do
  let buffer := [reg, val]
  let dev ← self.i2c_dev
  pure { self with i2c_dev := some (dev.write buffer 2) }

/-- The member `uint16_t readRegister16(uint8_t reg)`:
`uint8_t buffer[2] = {reg}; write_then_read(buffer, 2, buffer, 1);
return buffer[1] << 8 | buffer[0];`. -/
def readRegister16 (self : Adafruit_CST8XX) (reg : Nat) :
    Option (Adafruit_CST8XX × Nat) := do
  let buffer := [reg, 0]
  let dev ← self.i2c_dev
  let (dev, buffer) := dev.write_then_read buffer 2 buffer 1
  let b0 ← buffer[0]?
  let b1 ← buffer[1]?
  pure ({ self with i2c_dev := some dev }, ((b1 <<< 8) ||| b0) % 65536)

/-- The member `bool begin(TwoWire *theWire, uint8_t i2c_addr)`, compiled
without `CST8XX_DEBUG`. -/
def begin (self : Adafruit_CST8XX) (theWire : TwoWire) (i2c_addr : Nat) :
    Option (Adafruit_CST8XX × Bool) := do
  -- if (i2c_dev) delete i2c_dev;  i2c_dev = new Adafruit_I2CDevice(...)
  let dev : Adafruit_I2CDevice := { addr := i2c_addr, wire := theWire }
  let (dev, ok) := dev.begin
  let self := { self with i2c_dev := some dev }
  if !ok then
    pure (self, false)
  else
    let (self, id) ← readRegister8 self CST8XX_REG_CHIPTYPE
    if id != CST826_CHIPID then
      pure (self, false)
    else
      pure (self, true)

/-- The member `uint8_t touched(void)`. -/
def touched (self : Adafruit_CST8XX) : Option (Adafruit_CST8XX × Nat) := do
  let (self, n) ← readRegister8 self CST8XX_REG_NUMTOUCHES
  let n := if n > MAX_TOUCHES then 0 else n
  pure (self, n)

/-- Source lines 143-145 of `readData`, the X coordinate of slot `i`. -/
def readData.bodyX (i2cdat : List Nat) (touchX : Fin MAX_TOUCHES → Nat) (i : Nat) :
    Option (Fin MAX_TOUCHES → Nat) := do
  -- touchX[i] = i2cdat[i * 6] & 0x0F;
  let d ← i2cdat[i * 6]?
  let touchX ← aset touchX i (d &&& 0x0F)
  -- touchX[i] <<= 8;
  let v ← aget touchX i
  let touchX ← aset touchX i ((v <<< 8) % 65536)
  -- touchX[i] |= i2cdat[1 + i * 6];
  let v ← aget touchX i
  let d ← i2cdat[1 + i * 6]?
  aset touchX i (v ||| d)

/-- Source lines 147-149 of `readData`, the Y coordinate of slot `i`. -/
def readData.bodyY (i2cdat : List Nat) (touchY : Fin MAX_TOUCHES → Nat) (i : Nat) :
    Option (Fin MAX_TOUCHES → Nat) := do
  -- touchY[i] = i2cdat[2 + i * 6] & 0x0F;
  let d ← i2cdat[2 + i * 6]?
  let touchY ← aset touchY i (d &&& 0x0F)
  -- touchY[i] <<= 8;
  let v ← aget touchY i
  let touchY ← aset touchY i ((v <<< 8) % 65536)
  -- touchY[i] |= i2cdat[3 + i * 6];
  let v ← aget touchY i
  let d ← i2cdat[3 + i * 6]?
  aset touchY i (v ||| d)

/-- Source line 151 of `readData`, the event of slot `i`. -/
def readData.bodyEvent (i2cdat : List Nat) (event : Fin MAX_TOUCHES → Events) (i : Nat) :
    Option (Fin MAX_TOUCHES → Events) := do
  -- event[i] = (Events)(i2cdat[i * 6] >> 6);
  let d ← i2cdat[i * 6]?
  let e ← Events.ofNat? (d >>> 6)
  aset event i e

/-- Source line 152 of `readData`, the touch id of slot `i`. -/
def readData.bodyID (i2cdat : List Nat) (touchID : Fin MAX_TOUCHES → Nat) (i : Nat) :
    Option (Fin MAX_TOUCHES → Nat) := do
  -- touchID[i] = i2cdat[2 + i * 6] >> 4;
  let d ← i2cdat[2 + i * 6]?
  aset touchID i ((d >>> 4) % 256)

/-- One iteration of the decode loop of `readData` (source lines 143-152). -/
def readData.body (i2cdat : List Nat) (self : Adafruit_CST8XX) (i : Nat) :
    Option Adafruit_CST8XX := do
  let touchX ← readData.bodyX i2cdat self.touchX i
  let touchY ← readData.bodyY i2cdat self.touchY i
  let event ← readData.bodyEvent i2cdat self.event i
  let touchID ← readData.bodyID i2cdat self.touchID i
  pure { self with touchX := touchX, touchY := touchY, event := event, touchID := touchID }

/-- The member `void readData(void)`, compiled without `CST8XX_DEBUG`.  The
receive array `i2cdat` is uninitialised in the source; every cell of it is
overwritten by the read because `read_len` is its length, so its initial
content is immaterial (see `write_then_read_full`).  The loop counter `i`
is a `uint8_t` running below `touches <= 255`, so it never wraps. -/
def readData (self : Adafruit_CST8XX) : Option Adafruit_CST8XX := do
  -- touches = touched();
  let (self, n) ← touched self
  let self := { self with touches := n }
  -- uint8_t touchDataSize = touches * 6;
  let touchDataSize := (self.touches * 6) % 256
  let addr := CST8XX_REG_TOUCHDATA
  let i2cdat := List.replicate touchDataSize 0
  let dev ← self.i2c_dev
  let (dev, i2cdat) := dev.write_then_read [addr] 1 i2cdat touchDataSize
  let self := { self with i2c_dev := some dev }
  -- for (uint8_t i = 0; i < touches; i++) ...
  (List.range self.touches).foldlM (readData.body i2cdat) self

/-- The member `TS_Point getPoint(uint8_t n)`. -/
def getPoint (self : Adafruit_CST8XX) (n : Nat) :
    Option (Adafruit_CST8XX × TS_Point) := do
  let self ← readData self
  if (self.touches == 0) || (n > 1) then
    pure (self, TS_Point.new 0 0 0)
  else
    let x ← aget self.touchX n
    let y ← aget self.touchY n
    let id ← aget self.touchID n
    let e ← aget self.event n
    pure (self, TS_Point.new (toInt16 x) (toInt16 y) 1 id e)

/-! ## Closed form of the decode loop -/

/-- The state reached from `self` after the iterations `0 .. k-1` of the decode
loop of `readData` over the receive buffer `i2cdat`, written out slot by slot.
`decode_loop_eq` proves that the loop computes it. -/
def decoded (i2cdat : List Nat) (self : Adafruit_CST8XX) (k : Nat) : Adafruit_CST8XX :=
  { self with
    touchX := fun j =>
      if j.val < k then
        ((i2cdat.getD (j.val * 6) 0 &&& 0x0F) <<< 8) ||| i2cdat.getD (1 + j.val * 6) 0
      else self.touchX j
    touchY := fun j =>
      if j.val < k then
        ((i2cdat.getD (2 + j.val * 6) 0 &&& 0x0F) <<< 8) ||| i2cdat.getD (3 + j.val * 6) 0
      else self.touchY j
    event := fun j =>
      if j.val < k then (Events.ofNat? (i2cdat.getD (j.val * 6) 0 >>> 6)).getD Events.NONE
      else self.event j
    touchID := fun j =>
      if j.val < k then (i2cdat.getD (2 + j.val * 6) 0 >>> 4) % 256
      else self.touchID j }

/-- All stored coordinates fit in 12 bits. -/
def coordsInRange (self : Adafruit_CST8XX) : Prop :=
  ∀ i : Fin MAX_TOUCHES, self.touchX i ≤ 4095 ∧ self.touchY i ≤ 4095

/-! ## A scripted bus for concrete runs -/

/-- A bus that acknowledges probes according to `ok` and answers the `k`-th
transaction (counted from 0) with the `k`-th byte list of `script`; bytes
beyond the script are 0. -/
def scriptedWire (ok : Bool) (script : List (List Nat)) : TwoWire :=
  { ack := fun _ => ok
    rx := fun h j => (script.getD (h.length - 1) []).getD j 0
    log := [] }

/-- The device bound to `scriptedWire ok script` at the default address. -/
def scriptedDev (ok : Bool) (script : List (List Nat)) : Adafruit_I2CDevice :=
  { addr := CST8XX_DEFAULT_ADDR, wire := scriptedWire ok script }

/-- Stale array contents left by some earlier read. -/
def staleX : Fin MAX_TOUCHES → Nat := ![901, 902, 903, 904, 905]

/-- Stale array contents left by some earlier read. -/
def staleY : Fin MAX_TOUCHES → Nat := ![801, 802, 803, 804, 805]

/-- Stale array contents left by some earlier read. -/
def staleID : Fin MAX_TOUCHES → Nat := ![7, 6, 5, 4, 3]

/-- Stale array contents left by some earlier read. -/
def staleEvent : Fin MAX_TOUCHES → Events :=
  ![Events.PRESS, Events.RELEASE, Events.TOUCHING, Events.PRESS, Events.RELEASE]

/-- A controller bound to `scriptedDev true script` that holds a stale touch
count of 3 and the stale arrays above. -/
def staleCtl (script : List (List Nat)) : Adafruit_CST8XX :=
  { i2c_dev := some (scriptedDev true script)
    touches := 3, touchX := staleX, touchY := staleY, touchID := staleID
    event := staleEvent }

/-- The device of `staleCtl script` after the NUMTOUCHES read of `touched`. -/
def polledDev (script : List (List Nat)) : Adafruit_I2CDevice :=
  ((scriptedDev true script).write_then_read [CST8XX_REG_NUMTOUCHES] 1
    [CST8XX_REG_NUMTOUCHES] 1).1

/-- The device after the NUMTOUCHES read made by `touched`. -/
def afterCount (dev : Adafruit_I2CDevice) : Adafruit_I2CDevice :=
  (dev.write_then_read [CST8XX_REG_NUMTOUCHES] 1 [CST8XX_REG_NUMTOUCHES] 1).1

/-- The device after the TOUCHDATA read of `6 * c` bytes made by `readData`. -/
def afterData (dev : Adafruit_I2CDevice) (c : Nat) : Adafruit_I2CDevice :=
  (dev.write_then_read [CST8XX_REG_TOUCHDATA] 1 (List.replicate (6 * c) 0) (6 * c)).1

/-- A bus script in which two consecutive polls see the same single touch. -/
def twoPolls : List (List Nat) :=
  [[1], [0x81, 0x64, 0x32, 0xC8, 0x00, 0x00], [1], [0x81, 0x64, 0x32, 0xC8, 0x00, 0x00]]

/-- A bus script that reports one touch. -/
def oneTouch : List (List Nat) := [[1], [0x81, 0x64, 0x32, 0xC8, 0x00, 0x00]]

/-- A controller bound to the same device as `staleCtl script` whose count and
arrays are all zero (events `PRESS`, the enumerator of value 0). -/
def blankCtl (script : List (List Nat)) : Adafruit_CST8XX :=
  { i2c_dev := some (scriptedDev true script)
    touches := 0, touchX := fun _ => 0, touchY := fun _ => 0, touchID := fun _ => 0
    event := fun _ => Events.PRESS }

/-- The script `oneTouch` with other values in bytes 4 and 5 of the record. -/
def oneTouchOtherTail : List (List Nat) := [[1], [0x81, 0x64, 0x32, 0xC8, 0xAB, 0xCD]]

/-- The controller `staleCtl script` with `uint16_t` values at or above 0x8000
in slot 1 of the coordinate arrays, as uninitialised arrays may hold (the
constructor sets `touches` only). -/
def garbageCtl (script : List (List Nat)) : Adafruit_CST8XX :=
  { staleCtl script with
    touchX := ![901, 40000, 903, 904, 905]
    touchY := ![801, 65535, 803, 804, 805] }

/-! ## Auxiliary lemmas -/

theorem getElem?_eq_some_getD (l : List Nat) (n : Nat) (h : n < l.length) :
    l[n]? = some (l.getD n 0) := by
  simp [List.getD_eq_getElem?_getD, List.getElem?_eq_getElem h]

theorem aget_of_lt {α : Type} (a : Fin MAX_TOUCHES → α) (i : Nat) (h : i < MAX_TOUCHES) :
    aget a i = some (a ⟨i, h⟩) := by
  simp [aget, h]

theorem aset_of_lt {α : Type} (a : Fin MAX_TOUCHES → α) (i : Nat) (v : α)
    (h : i < MAX_TOUCHES) : aset a i v = some (Function.update a ⟨i, h⟩ v) := by
  simp [aset, h]

theorem nibble_shift_lt (d : Nat) : ((d &&& 0x0F) <<< 8) % 65536 = (d &&& 0x0F) <<< 8 := by
  have h : d &&& 0x0F ≤ 0x0F := Nat.and_le_right
  rw [Nat.shiftLeft_eq]
  omega

theorem ofNat?_shift6 (d : Nat) (h : d < 256) :
    Events.ofNat? (d >>> 6) = some ((Events.ofNat? (d >>> 6)).getD Events.NONE) := by
  have h6 : d >>> 6 < 4 := by
    rw [Nat.shiftRight_eq_div_pow]
    omega
  generalize d >>> 6 = v at h6
  interval_cases v <;> rfl

theorem bodyX_eq (i2cdat : List Nat) (a : Fin MAX_TOUCHES → Nat) (i : Nat)
    (hi : i < MAX_TOUCHES) (hlen : 6 * (i + 1) ≤ i2cdat.length) :
    readData.bodyX i2cdat a i = some (Function.update a ⟨i, hi⟩
      (((i2cdat.getD (i * 6) 0 &&& 0x0F) <<< 8) ||| i2cdat.getD (1 + i * 6) 0)) := by
  have h0 := getElem?_eq_some_getD i2cdat (i * 6) (by omega)
  have h1 := getElem?_eq_some_getD i2cdat (1 + i * 6) (by omega)
  simp only [readData.bodyX, h0, h1, aget_of_lt _ i hi, aset_of_lt _ i _ hi, bind, Option.bind,
    Function.update_same, Function.update_idem, nibble_shift_lt]

theorem bodyY_eq (i2cdat : List Nat) (a : Fin MAX_TOUCHES → Nat) (i : Nat)
    (hi : i < MAX_TOUCHES) (hlen : 6 * (i + 1) ≤ i2cdat.length) :
    readData.bodyY i2cdat a i = some (Function.update a ⟨i, hi⟩
      (((i2cdat.getD (2 + i * 6) 0 &&& 0x0F) <<< 8) ||| i2cdat.getD (3 + i * 6) 0)) := by
  have h0 := getElem?_eq_some_getD i2cdat (2 + i * 6) (by omega)
  have h1 := getElem?_eq_some_getD i2cdat (3 + i * 6) (by omega)
  simp only [readData.bodyY, h0, h1, aget_of_lt _ i hi, aset_of_lt _ i _ hi, bind, Option.bind,
    Function.update_same, Function.update_idem, nibble_shift_lt]

theorem bodyEvent_eq (i2cdat : List Nat) (a : Fin MAX_TOUCHES → Events) (i : Nat)
    (hi : i < MAX_TOUCHES) (hlen : 6 * (i + 1) ≤ i2cdat.length)
    (hb : ∀ j, i2cdat.getD j 0 < 256) :
    readData.bodyEvent i2cdat a i = some (Function.update a ⟨i, hi⟩
      ((Events.ofNat? (i2cdat.getD (i * 6) 0 >>> 6)).getD Events.NONE)) := by
  have h0 := getElem?_eq_some_getD i2cdat (i * 6) (by omega)
  have h6 := ofNat?_shift6 _ (hb (i * 6))
  generalize (Events.ofNat? (i2cdat.getD (i * 6) 0 >>> 6)).getD Events.NONE = e at h6
  simp only [readData.bodyEvent, h0, h6, aset_of_lt _ i _ hi, bind, Option.bind]

theorem bodyID_eq (i2cdat : List Nat) (a : Fin MAX_TOUCHES → Nat) (i : Nat)
    (hi : i < MAX_TOUCHES) (hlen : 6 * (i + 1) ≤ i2cdat.length) :
    readData.bodyID i2cdat a i = some (Function.update a ⟨i, hi⟩
      ((i2cdat.getD (2 + i * 6) 0 >>> 4) % 256)) := by
  have h0 := getElem?_eq_some_getD i2cdat (2 + i * 6) (by omega)
  simp only [readData.bodyID, h0, aset_of_lt _ i _ hi, bind, Option.bind]

theorem update_step {α : Type} (f g : Fin MAX_TOUCHES → α) (k : Nat) (hk : k < MAX_TOUCHES) :
    Function.update (fun j : Fin MAX_TOUCHES => if j.val < k then f j else g j) ⟨k, hk⟩ (f ⟨k, hk⟩)
      = fun j : Fin MAX_TOUCHES => if j.val < k + 1 then f j else g j := by
  funext j
  by_cases hj : j = ⟨k, hk⟩
  · subst hj
    simp
  · have hne : j.val ≠ k := fun h => hj (Fin.ext h)
    rw [Function.update_noteq hj]
    by_cases hlt : j.val < k
    · have : j.val < k + 1 := by omega
      simp [hlt, this]
    · have : ¬ j.val < k + 1 := by omega
      simp [hlt, this]

theorem body_decoded (i2cdat : List Nat) (s : Adafruit_CST8XX) (k : Nat)
    (hk : k < MAX_TOUCHES) (hlen : 6 * (k + 1) ≤ i2cdat.length)
    (hb : ∀ j, i2cdat.getD j 0 < 256) :
    readData.body i2cdat (decoded i2cdat s k) k = some (decoded i2cdat s (k + 1)) := by
  unfold readData.body
  rw [bodyX_eq _ _ k hk hlen, bodyY_eq _ _ k hk hlen,
    bodyEvent_eq _ _ k hk hlen hb, bodyID_eq _ _ k hk hlen]
  simp only [Option.bind_eq_bind, Option.some_bind, Option.pure_def, decoded]
  congr 2
  · exact update_step (fun j => ((i2cdat.getD (j.val * 6) 0 &&& 0x0F) <<< 8) |||
      i2cdat.getD (1 + j.val * 6) 0) s.touchX k hk
  · exact update_step (fun j => ((i2cdat.getD (2 + j.val * 6) 0 &&& 0x0F) <<< 8) |||
      i2cdat.getD (3 + j.val * 6) 0) s.touchY k hk
  · exact update_step (fun j => (i2cdat.getD (2 + j.val * 6) 0 >>> 4) % 256) s.touchID k hk
  · exact update_step (fun j => (Events.ofNat? (i2cdat.getD (j.val * 6) 0 >>> 6)).getD
      Events.NONE) s.event k hk

theorem decoded_zero (i2cdat : List Nat) (s : Adafruit_CST8XX) : decoded i2cdat s 0 = s := by
  simp [decoded]

/-- The decode loop of `readData` run for `k` iterations computes `decoded`. -/
theorem decode_loop_eq (i2cdat : List Nat) (s : Adafruit_CST8XX) (k : Nat)
    (hk : k ≤ MAX_TOUCHES) (hlen : 6 * k ≤ i2cdat.length)
    (hb : ∀ j, i2cdat.getD j 0 < 256) :
    (List.range k).foldlM (readData.body i2cdat) s = some (decoded i2cdat s k) := by
  induction k with
  | zero => simp [decoded_zero]
  | succ k ih =>
    rw [List.range_succ, List.foldlM_append, ih (by omega) (by omega)]
    simp [body_decoded i2cdat s k (by omega) (by omega) hb]


/-! ### Bus reads -/

theorem write_then_read_full (dev : Adafruit_I2CDevice) (wb : List Nat) (wl : Nat)
    (buf : List Nat) (n : Nat) (h : buf.length ≤ n) :
    (dev.write_then_read wb wl buf n).2 =
      (List.range n).map (fun j => dev.wire.rx
        (dev.wire.log ++ [Txn.write_then_read dev.addr (wb.take wl) n]) j % 256) := by
  simp [Adafruit_I2CDevice.write_then_read, List.drop_eq_nil_of_le h]

theorem write_then_read_fst (dev : Adafruit_I2CDevice) (wb : List Nat) (wl : Nat)
    (buf buf' : List Nat) (n : Nat) :
    (dev.write_then_read wb wl buf n).1 = (dev.write_then_read wb wl buf' n).1 := rfl

theorem write_then_read_length (dev : Adafruit_I2CDevice) (wb : List Nat) (wl : Nat)
    (buf : List Nat) (n : Nat) (h : buf.length = n) :
    (dev.write_then_read wb wl buf n).2.length = n := by
  rw [write_then_read_full dev wb wl buf n (by omega)]
  simp

theorem write_then_read_getD_lt (dev : Adafruit_I2CDevice) (wb : List Nat) (wl : Nat)
    (buf : List Nat) (n : Nat) (h : buf.length ≤ n) (j : Nat) :
    (dev.write_then_read wb wl buf n).2.getD j 0 < 256 := by
  rw [write_then_read_full dev wb wl buf n h, List.getD_eq_getElem?_getD]
  by_cases hj : j < n
  · simp [List.getElem?_map, List.getElem?_range hj]
    omega
  · have : ((List.range n).map (fun j => dev.wire.rx
        (dev.wire.log ++ [Txn.write_then_read dev.addr (wb.take wl) n]) j % 256))[j]? = none := by
      simp; omega
    simp [this]

theorem readRegister8_eq (s : Adafruit_CST8XX) (dev : Adafruit_I2CDevice) (reg : Nat)
    (h : s.i2c_dev = some dev) :
    readRegister8 s reg =
      some ({ s with i2c_dev := some (dev.write_then_read [reg] 1 [reg] 1).1 },
        dev.wire.rx (dev.wire.log ++ [Txn.write_then_read dev.addr [reg] 1]) 0 % 256) := by
  simp [readRegister8, h, Adafruit_I2CDevice.write_then_read]

theorem touched_eq (s : Adafruit_CST8XX) (dev : Adafruit_I2CDevice)
    (h : s.i2c_dev = some dev) :
    touched s =
      some ({ s with i2c_dev := some (dev.write_then_read [CST8XX_REG_NUMTOUCHES] 1
                [CST8XX_REG_NUMTOUCHES] 1).1 },
        if dev.wire.rx (dev.wire.log ++
            [Txn.write_then_read dev.addr [CST8XX_REG_NUMTOUCHES] 1]) 0 % 256 > MAX_TOUCHES
        then 0
        else dev.wire.rx (dev.wire.log ++
            [Txn.write_then_read dev.addr [CST8XX_REG_NUMTOUCHES] 1]) 0 % 256) := by
  simp [touched, readRegister8_eq s dev _ h]

theorem touched_inv (s s1 : Adafruit_CST8XX) (c : Nat) (h : touched s = some (s1, c)) :
    c ≤ MAX_TOUCHES ∧ ∃ dev, s.i2c_dev = some dev ∧
      s1 = { s with i2c_dev := some (dev.write_then_read [CST8XX_REG_NUMTOUCHES] 1
                [CST8XX_REG_NUMTOUCHES] 1).1 } := by
  cases hd : s.i2c_dev with
  | none => simp [touched, readRegister8, hd] at h
  | some dev =>
    rw [touched_eq s dev hd] at h
    simp only [Option.some.injEq, Prod.mk.injEq] at h
    obtain ⟨h1, h2⟩ := h
    refine ⟨?_, dev, rfl, h1.symm⟩
    rw [← h2]
    split <;> omega

theorem readData_eq (s s1 : Adafruit_CST8XX) (dev1 : Adafruit_I2CDevice) (c : Nat)
    (buf : List Nat) (hbuf : buf.length = c * 6)
    (ht : touched s = some (s1, c)) (hd : s1.i2c_dev = some dev1) :
    readData s = some (decoded
      (dev1.write_then_read [CST8XX_REG_TOUCHDATA] 1 buf (c * 6)).2
      { s1 with touches := c
                i2c_dev := some (dev1.write_then_read [CST8XX_REG_TOUCHDATA] 1 buf (c * 6)).1 }
      c) := by
  have hc : c ≤ MAX_TOUCHES := (touched_inv s s1 c ht).1
  have hmod : c * 6 % 256 = c * 6 := by
    have : c ≤ 5 := hc
    omega
  have hfull : (dev1.write_then_read [CST8XX_REG_TOUCHDATA] 1
      (List.replicate (c * 6) 0) (c * 6)).2 =
      (dev1.write_then_read [CST8XX_REG_TOUCHDATA] 1 buf (c * 6)).2 := by
    rw [write_then_read_full _ _ _ _ _ (by simp), write_then_read_full _ _ _ _ _ (by omega)]
  simp only [readData, ht, hd, hmod, bind, Option.bind]
  rw [hfull, write_then_read_fst dev1 _ 1 (List.replicate (c * 6) 0) buf]
  exact decode_loop_eq _ _ c hc
    (by rw [write_then_read_length _ _ _ _ _ hbuf]; omega)
    (write_then_read_getD_lt _ _ _ _ _ (by omega))


/-! ### Arithmetic of the decoded fields -/

theorem coord_lt (d e : Nat) (he : e < 256) : ((d &&& 0x0F) <<< 8) ||| e < 4096 := by
  have h : d &&& 0x0F ≤ 0x0F := Nat.and_le_right
  have h1 : (d &&& 0x0F) <<< 8 < 2 ^ 12 := by
    rw [Nat.shiftLeft_eq]
    omega
  have h2 : e < 2 ^ 12 := by omega
  exact Nat.or_lt_two_pow h1 h2

theorem toInt16_of_lt (v : Nat) (h : v < 32768) : toInt16 v = (v : Int) := by
  have hm : v % 65536 = v := by omega
  simp [toInt16, hm, h]

theorem toNat_ofNat?_shift6 (d : Nat) (h : d < 256) :
    ((Events.ofNat? (d >>> 6)).getD Events.NONE).toNat = d >>> 6 := by
  have h6 : d >>> 6 < 4 := by
    rw [Nat.shiftRight_eq_div_pow]
    omega
  generalize d >>> 6 = v at h6
  interval_cases v <;> rfl

theorem shift4_mod (d : Nat) (h : d < 256) : (d >>> 4) % 256 = d >>> 4 := by
  rw [Nat.shiftRight_eq_div_pow]
  omega

/-! ### `getPoint` after a completed `readData` -/

theorem getPoint_null (s s' : Adafruit_CST8XX) (n : Nat) (hr : readData s = some s')
    (h : s'.touches = 0 ∨ 1 < n) :
    getPoint s n = some (s', TS_Point.new 0 0 0) := by
  have hc : ((s'.touches == 0) || decide (n > 1)) = true := by
    rcases h with h | h
    · simp [h]
    · simp [h]
  simp only [getPoint, hr, bind, Option.bind, hc, if_true, pure]

theorem getPoint_slot (s s' : Adafruit_CST8XX) (n : Nat) (hr : readData s = some s')
    (ht : s'.touches ≠ 0) (hn : n ≤ 1) :
    getPoint s n = some (s', TS_Point.new
      (toInt16 (s'.touchX ⟨n, Nat.lt_of_le_of_lt hn (by decide)⟩))
      (toInt16 (s'.touchY ⟨n, Nat.lt_of_le_of_lt hn (by decide)⟩)) 1
      (s'.touchID ⟨n, Nat.lt_of_le_of_lt hn (by decide)⟩)
      (s'.event ⟨n, Nat.lt_of_le_of_lt hn (by decide)⟩)) := by
  have hlt : n < MAX_TOUCHES := Nat.lt_of_le_of_lt hn (by decide)
  have hc : ((s'.touches == 0) || decide (n > 1)) = false := by
    have : ¬ n > 1 := by omega
    simp [ht, this]
  simp only [getPoint, hr, bind, Option.bind, hc, aget_of_lt _ n hlt, pure]
  rfl


/-! ### Fields of the closed form -/

theorem decoded_fields (b : List Nat) (s : Adafruit_CST8XX) (k : Nat)
    (hb : ∀ i, b.getD i 0 < 256) (j : Fin MAX_TOUCHES) (hj : j.val < k) :
    (decoded b s k).touchX j =
        ((b.getD (6 * j.val) 0 &&& 0x0F) <<< 8) ||| b.getD (6 * j.val + 1) 0 ∧
    (decoded b s k).touchY j =
        ((b.getD (6 * j.val + 2) 0 &&& 0x0F) <<< 8) ||| b.getD (6 * j.val + 3) 0 ∧
    ((decoded b s k).event j).toNat = b.getD (6 * j.val) 0 >>> 6 ∧
    (decoded b s k).touchID j = b.getD (6 * j.val + 2) 0 >>> 4 := by
  have e0 : j.val * 6 = 6 * j.val := Nat.mul_comm _ _
  have e1 : 1 + 6 * j.val = 6 * j.val + 1 := Nat.add_comm _ _
  have e2 : 2 + 6 * j.val = 6 * j.val + 2 := Nat.add_comm _ _
  have e3 : 3 + 6 * j.val = 6 * j.val + 3 := Nat.add_comm _ _
  simp only [decoded, hj, if_true, e0, e1, e2, e3]
  exact ⟨trivial, trivial, toNat_ofNat?_shift6 _ (hb _), shift4_mod _ (hb _)⟩

theorem decoded_stale (b : List Nat) (s : Adafruit_CST8XX) (k : Nat)
    (j : Fin MAX_TOUCHES) (hj : k ≤ j.val) :
    (decoded b s k).touchX j = s.touchX j ∧ (decoded b s k).touchY j = s.touchY j ∧
    (decoded b s k).event j = s.event j ∧ (decoded b s k).touchID j = s.touchID j := by
  have h : ¬ j.val < k := by omega
  simp [decoded, h]

/-! ## Properties of the driver -/

/-- C1: when `touched` reports the count `c` and the bus then delivers the
receive buffer `b` for the TOUCHDATA read, `readData` completes, `b` has `6*c`
bytes, the stored count is `c`, and every slot `i < c` holds
X = `((b[6i] & 0x0F) << 8) | b[6i+1]`, Y = `((b[6i+2] & 0x0F) << 8) | b[6i+3]`,
event = `b[6i] >> 6` (as the enumerator with that value) and id = `b[6i+2] >> 4`.
The initial content `buf` of the receive array is arbitrary. -/
theorem C1_readData_decodes (s s1 : Adafruit_CST8XX) (dev1 dev2 : Adafruit_I2CDevice)
    (c : Nat) (buf b : List Nat)
    (ht : touched s = some (s1, c)) (hd : s1.i2c_dev = some dev1)
    (hbuf : buf.length = 6 * c)
    (hb : dev1.write_then_read [CST8XX_REG_TOUCHDATA] 1 buf (6 * c) = (dev2, b)) :
    b.length = 6 * c ∧
    ∃ s', readData s = some s' ∧ s'.touches = c ∧
      ∀ i : Fin MAX_TOUCHES, i.val < c →
        s'.touchX i = ((b.getD (6 * i.val) 0 &&& 0x0F) <<< 8) ||| b.getD (6 * i.val + 1) 0 ∧
        s'.touchY i =
          ((b.getD (6 * i.val + 2) 0 &&& 0x0F) <<< 8) ||| b.getD (6 * i.val + 3) 0 ∧
        (s'.event i).toNat = b.getD (6 * i.val) 0 >>> 6 ∧
        s'.touchID i = b.getD (6 * i.val + 2) 0 >>> 4 := by
  have hb2 : b = (dev1.write_then_read [CST8XX_REG_TOUCHDATA] 1 buf (6 * c)).2 := by rw [hb]
  have hlt : ∀ j, b.getD j 0 < 256 := by
    intro j
    rw [hb2]
    exact write_then_read_getD_lt _ _ _ _ _ (by omega) j
  refine ⟨by rw [hb2]; exact write_then_read_length _ _ _ _ _ hbuf, ?_⟩
  have hr := readData_eq s s1 dev1 c buf (by omega) ht hd
  rw [Nat.mul_comm c 6, ← hb2] at hr
  exact ⟨_, hr, rfl, fun i hi => decoded_fields b _ c hlt i hi⟩


theorem toNat_eq_one (e : Events) (h : e.toNat = 1) : e = Events.RELEASE := by
  cases e <;> simp [Events.toNat] at h ⊢

/-- C1 at the spec's test record: count 1 and data `[0x41, 0x23, 0, 0, 0, 0]`
give X = 0x123 and event RELEASE in slot 0. -/
theorem C1_readData_decodes_witness :
    ∃ s', readData (staleCtl [[1], [0x41, 0x23, 0, 0, 0, 0]]) = some s' ∧
      s'.touchX 0 = 0x123 ∧ s'.event 0 = Events.RELEASE := by
  obtain ⟨_, s', hr, _, hs⟩ := C1_readData_decodes
    (staleCtl [[1], [0x41, 0x23, 0, 0, 0, 0]])
    { staleCtl [[1], [0x41, 0x23, 0, 0, 0, 0]] with
      i2c_dev := some (polledDev [[1], [0x41, 0x23, 0, 0, 0, 0]]) }
    (polledDev [[1], [0x41, 0x23, 0, 0, 0, 0]])
    ((polledDev [[1], [0x41, 0x23, 0, 0, 0, 0]]).write_then_read
      [CST8XX_REG_TOUCHDATA] 1 (List.replicate 6 0) 6).1
    1 (List.replicate 6 0) [0x41, 0x23, 0, 0, 0, 0] rfl rfl rfl rfl
  obtain ⟨hx, _, he, _⟩ := hs 0 (by decide)
  exact ⟨s', hr, hx, toNat_eq_one _ he⟩


theorem touched_of_bound (s : Adafruit_CST8XX) (dev : Adafruit_I2CDevice)
    (hd : s.i2c_dev = some dev) :
    ∃ s1 c dev1, touched s = some (s1, c) ∧ s1.i2c_dev = some dev1 :=
  ⟨_, _, _, touched_eq s dev hd, rfl⟩

theorem readData_of_bound (s : Adafruit_CST8XX) (dev : Adafruit_I2CDevice)
    (hd : s.i2c_dev = some dev) : ∃ s', readData s = some s' := by
  obtain ⟨s1, c, dev1, ht, hd1⟩ := touched_of_bound s dev hd
  exact ⟨_, readData_eq s s1 dev1 c (List.replicate (c * 6) 0) (by simp) ht hd1⟩

theorem toNat_eq_two (e : Events) (h : e.toNat = 2) : e = Events.TOUCHING := by
  cases e <;> simp [Events.toNat] at h ⊢

/-- C2: when `touched` reports the count `c`, the bus delivers the buffer `b`
for the TOUCHDATA read, and `n` is 0 or 1 with `n < c`, then `getPoint n`
returns a point with z = 1 whose x, y, id and event are the values decoded
from the 6-byte record at offset `6*n` of `b`. -/
theorem C2_getPoint_decoded (s s1 : Adafruit_CST8XX) (dev1 dev2 : Adafruit_I2CDevice)
    (c n : Nat) (buf b : List Nat)
    (ht : touched s = some (s1, c)) (hd : s1.i2c_dev = some dev1)
    (hbuf : buf.length = 6 * c)
    (hb : dev1.write_then_read [CST8XX_REG_TOUCHDATA] 1 buf (6 * c) = (dev2, b))
    (hn1 : n ≤ 1) (hnc : n < c) :
    6 * n + 6 ≤ b.length ∧
    ∃ s' p, getPoint s n = some (s', p) ∧
      p.x = (((b.getD (6 * n) 0 &&& 0x0F) <<< 8 ||| b.getD (6 * n + 1) 0 : Nat) : Int) ∧
      p.y = (((b.getD (6 * n + 2) 0 &&& 0x0F) <<< 8 ||| b.getD (6 * n + 3) 0 : Nat) : Int) ∧
      p.z = 1 ∧
      p.id = b.getD (6 * n + 2) 0 >>> 4 ∧
      p.event.toNat = b.getD (6 * n) 0 >>> 6 := by
  have hb2 : b = (dev1.write_then_read [CST8XX_REG_TOUCHDATA] 1 buf (6 * c)).2 := by rw [hb]
  have hlt : ∀ j, b.getD j 0 < 256 := by
    intro j
    rw [hb2]
    exact write_then_read_getD_lt _ _ _ _ _ (by omega) j
  have hlen : b.length = 6 * c := by
    rw [hb2]
    exact write_then_read_length _ _ _ _ _ hbuf
  refine ⟨by omega, ?_⟩
  have hr := readData_eq s s1 dev1 c buf (by omega) ht hd
  rw [Nat.mul_comm c 6, ← hb2] at hr
  generalize hs2 : ({ s1 with
    touches := c
    i2c_dev := some (dev1.write_then_read [CST8XX_REG_TOUCHDATA] 1 buf (6 * c)).1 } :
      Adafruit_CST8XX) = s2 at hr
  have hc0 : (decoded b s2 c).touches ≠ 0 := by
    show s2.touches ≠ 0
    rw [← hs2]
    show c ≠ 0
    omega
  have hg := getPoint_slot s _ n hr hc0 hn1
  obtain ⟨hx, hy, he, hi⟩ := decoded_fields b s2 c hlt
      ⟨n, Nat.lt_of_le_of_lt hn1 (by decide)⟩ hnc
  refine ⟨_, _, hg, ?_, ?_, rfl, hi, he⟩
  · show toInt16 _ = _
    rw [hx]
    exact toInt16_of_lt _ (Nat.lt_trans (coord_lt _ _ (hlt _)) (by decide))
  · show toInt16 _ = _
    rw [hy]
    exact toInt16_of_lt _ (Nat.lt_trans (coord_lt _ _ (hlt _)) (by decide))

/-- C2 at the spec's scenario: count 1 and data `[0x81,0x64,0x32,0xC8,0,0]`
make `getPoint 0` return `(356, 712, 1, id 3, TOUCHING)`. -/
theorem C2_getPoint_decoded_witness :
    ∃ s', getPoint (staleCtl [[1], [0x81, 0x64, 0x32, 0xC8, 0x00, 0x00]]) 0 =
      some (s', { x := 356, y := 712, z := 1, id := 3, event := Events.TOUCHING }) := by
  obtain ⟨_, s', p, hg, hx, hy, hz, hi, he⟩ := C2_getPoint_decoded
    (staleCtl [[1], [0x81, 0x64, 0x32, 0xC8, 0x00, 0x00]])
    { staleCtl [[1], [0x81, 0x64, 0x32, 0xC8, 0x00, 0x00]] with
      i2c_dev := some (polledDev [[1], [0x81, 0x64, 0x32, 0xC8, 0x00, 0x00]]) }
    (polledDev [[1], [0x81, 0x64, 0x32, 0xC8, 0x00, 0x00]])
    ((polledDev [[1], [0x81, 0x64, 0x32, 0xC8, 0x00, 0x00]]).write_then_read
      [CST8XX_REG_TOUCHDATA] 1 (List.replicate 6 0) 6).1
    1 0 (List.replicate 6 0) [0x81, 0x64, 0x32, 0xC8, 0x00, 0x00] rfl rfl rfl rfl
    (by decide) (by decide)
  refine ⟨s', ?_⟩
  rw [hg]
  have hp : p = { x := 356, y := 712, z := 1, id := 3, event := Events.TOUCHING } := by
    cases p
    simp only [TS_Point.mk.injEq]
    exact ⟨hx, hy, hz, hi, toNat_eq_two _ he⟩
  rw [hp]

/-- C3: whatever the controller held before, if the touch count obtained from
the bus during the call is 0 (`touched` yields 0), `getPoint 0` returns a
point with x = 0, y = 0 and z = 0. -/
theorem C3_getPoint_zero_touches (s s1 : Adafruit_CST8XX)
    (ht : touched s = some (s1, 0)) :
    ∃ s' p, getPoint s 0 = some (s', p) ∧ p.x = 0 ∧ p.y = 0 ∧ p.z = 0 := by
  obtain ⟨_, dev, _, hs1⟩ := touched_inv s s1 0 ht
  have hd : s1.i2c_dev = some (dev.write_then_read [CST8XX_REG_NUMTOUCHES] 1
      [CST8XX_REG_NUMTOUCHES] 1).1 := by rw [hs1]
  have hr := readData_eq s s1 _ 0 [] rfl ht hd
  exact ⟨_, _, getPoint_null s _ 0 hr (Or.inl rfl), rfl, rfl, rfl⟩

/-- C3 on a controller with stale arrays and a stale count of 3: the bus
reports 0 touches and `getPoint 0` is the null point. -/
theorem C3_getPoint_zero_touches_witness :
    touched (staleCtl [[0]]) =
      some ({ staleCtl [[0]] with i2c_dev := some (polledDev [[0]]) }, 0) ∧
    ∃ s' p, getPoint (staleCtl [[0]]) 0 = some (s', p) ∧ p.x = 0 ∧ p.y = 0 ∧ p.z = 0 :=
  ⟨rfl, C3_getPoint_zero_touches (staleCtl [[0]])
    { staleCtl [[0]] with i2c_dev := some (polledDev [[0]]) } rfl⟩

/-- C4: for every slot index `n >= 2`, every state of a controller bound to a
device and every bus behaviour, `getPoint n` returns a point with x = 0,
y = 0 and z = 0. -/
theorem C4_getPoint_slot_above_one (s : Adafruit_CST8XX) (dev : Adafruit_I2CDevice)
    (n : Nat) (hd : s.i2c_dev = some dev) (hn : 2 ≤ n) :
    ∃ s' p, getPoint s n = some (s', p) ∧ p.x = 0 ∧ p.y = 0 ∧ p.z = 0 := by
  obtain ⟨s', hr⟩ := readData_of_bound s dev hd
  exact ⟨_, _, getPoint_null s s' n hr (Or.inr (by omega)), rfl, rfl, rfl⟩

/-- C4 with two touches reported and both records populated: `getPoint 2` is
still the null point. -/
theorem C4_getPoint_slot_above_one_witness :
    ∃ s' p, getPoint (staleCtl [[2], [1, 2, 3, 4, 5, 6, 7, 8, 9, 10, 11, 12]]) 2 = some (s', p) ∧
      p.x = 0 ∧ p.y = 0 ∧ p.z = 0 :=
  C4_getPoint_slot_above_one (staleCtl [[2], [1, 2, 3, 4, 5, 6, 7, 8, 9, 10, 11, 12]])
    (scriptedDev true [[2], [1, 2, 3, 4, 5, 6, 7, 8, 9, 10, 11, 12]]) 2 rfl (by decide)

/-- C5: if the NUMTOUCHES register (0x02) read delivers the raw byte `r`, then
`touched` returns 0 when `r > MAX_TOUCHES` (5) and `r` itself otherwise, so
its result is at most 5. -/
theorem C5_touched_clamps (s s1 : Adafruit_CST8XX) (r : Nat)
    (hr : readRegister8 s 0x02 = some (s1, r)) :
    touched s = some (s1, if r > 5 then 0 else r) ∧ (if r > 5 then 0 else r) ≤ 5 := by
  constructor
  · have hr2 : readRegister8 s CST8XX_REG_NUMTOUCHES = some (s1, r) := hr
    simp [touched, hr2]
  · split <;> omega

/-- C5 at the raw byte 200: `touched` returns 0. -/
theorem C5_touched_clamps_witness :
    readRegister8 (staleCtl [[200]]) 0x02 =
      some ({ staleCtl [[200]] with i2c_dev := some (polledDev [[200]]) }, 200) ∧
    touched (staleCtl [[200]]) =
      some ({ staleCtl [[200]] with i2c_dev := some (polledDev [[200]]) }, 0) :=
  ⟨rfl, (C5_touched_clamps (staleCtl [[200]])
    { staleCtl [[200]] with i2c_dev := some (polledDev [[200]]) } 200 rfl).1⟩


/-- C6: let `ok` be the outcome of the bus probe and `id` the byte the bus
delivers for the CHIPTYPE register (0xAA) after the probe.  Then `begin`
returns, and it returns true exactly when `ok` holds and `id = 0x11`; for
`id = 0xB4` it returns false whatever the probe said. -/
theorem C6_begin_iff (s : Adafruit_CST8XX) (theWire : TwoWire) (i2c_addr : Nat)
    (dev1 dev2 : Adafruit_I2CDevice) (ok : Bool) (id : Nat)
    (hp : Adafruit_I2CDevice.begin { addr := i2c_addr, wire := theWire } = (dev1, ok))
    (hid : dev1.write_then_read [0xAA] 1 [0xAA] 1 = (dev2, [id])) :
    ∃ s' r, begin s theWire i2c_addr = some (s', r) ∧
      (r = true ↔ ok = true ∧ id = 0x11) ∧ (id = 0xB4 → r = false) := by
  have hbyte : dev1.wire.rx (dev1.wire.log ++ [Txn.write_then_read dev1.addr [0xAA] 1]) 0 % 256
      = id := by
    have h2 := congrArg Prod.snd hid
    simpa [Adafruit_I2CDevice.write_then_read, List.range_succ] using h2
  cases ok with
  | false =>
    refine ⟨{ s with i2c_dev := some dev1 }, false, ?_, by simp, by simp⟩
    simp only [begin, hp, bind, Option.bind, pure]
    rfl
  | true =>
    have hreg := readRegister8_eq { s with i2c_dev := some dev1 } dev1 CST8XX_REG_CHIPTYPE rfl
    by_cases hc : id = 0x11
    · refine ⟨{ s with i2c_dev := some (dev1.write_then_read [0xAA] 1 [0xAA] 1).1 }, true, ?_,
        by simp [hc], by omega⟩
      simp only [begin, hp, bind, Option.bind, pure, hreg]
      simp [CST8XX_REG_CHIPTYPE, hbyte, hc, CST826_CHIPID]
    · refine ⟨{ s with i2c_dev := some (dev1.write_then_read [0xAA] 1 [0xAA] 1).1 }, false, ?_,
        by simp [hc], by simp⟩
      simp only [begin, hp, bind, Option.bind, pure, hreg]
      simp [CST8XX_REG_CHIPTYPE, hbyte, hc, CST826_CHIPID]

/-- C6 on a bus whose probe succeeds and whose chip identifies as 0xB4
(CST816S): `begin` returns false. -/
theorem C6_begin_iff_witness :
    ∃ s', begin (staleCtl []) (scriptedWire true [[], [0xB4]]) 0x15 = some (s', false) := by
  obtain ⟨s', r, hb, _, h⟩ := C6_begin_iff (staleCtl []) (scriptedWire true [[], [0xB4]]) 0x15
    (Adafruit_I2CDevice.begin { addr := 0x15, wire := scriptedWire true [[], [0xB4]] }).1
    ((Adafruit_I2CDevice.begin { addr := 0x15, wire := scriptedWire true [[], [0xB4]] }).1.write_then_read
      [0xAA] 1 [0xAA] 1).1
    true 0xB4 rfl rfl
  rw [h rfl] at hb
  exact ⟨s', hb⟩

/-- C7: `p == q` is true exactly when x, y, z and id agree; the event field
of either operand never affects the result. -/
theorem C7_eq_iff (p q : TS_Point) :
    (TS_Point.eq p q = true ↔ p.x = q.x ∧ p.y = q.y ∧ p.z = q.z ∧ p.id = q.id) ∧
    (∀ e e', TS_Point.eq { p with event := e } { q with event := e' } = TS_Point.eq p q) := by
  constructor
  · simp only [TS_Point.eq, Bool.and_eq_true, beq_iff_eq]
    constructor
    · rintro ⟨⟨⟨h1, h2⟩, h3⟩, h4⟩
      exact ⟨h1.symm, h2.symm, h3.symm, h4.symm⟩
    · rintro ⟨h1, h2, h3, h4⟩
      exact ⟨⟨⟨h1.symm, h2.symm⟩, h3.symm⟩, h4.symm⟩
  · intro e e'
    rfl

/-- C8: `p != q` is the logical negation of `p == q`; it is false exactly when
x, y, z and id are the same for both points. -/
theorem C8_ne_is_not_eq (p q : TS_Point) :
    TS_Point.ne p q = !(TS_Point.eq p q) ∧
    (TS_Point.ne p q = false ↔ p.x = q.x ∧ p.y = q.y ∧ p.z = q.z ∧ p.id = q.id) := by
  have h : TS_Point.ne p q = !(TS_Point.eq p q) := by
    simp only [TS_Point.ne, TS_Point.eq, bne, Bool.not_and]
  refine ⟨h, ?_⟩
  rw [h, Bool.not_eq_false_eq_eq_true]
  simp only [TS_Point.eq, Bool.and_eq_true, beq_iff_eq]
  constructor
  · rintro ⟨⟨⟨h1, h2⟩, h3⟩, h4⟩
    exact ⟨h1.symm, h2.symm, h3.symm, h4.symm⟩
  · rintro ⟨h1, h2, h3, h4⟩
    exact ⟨⟨⟨h1.symm, h2.symm⟩, h3.symm⟩, h4.symm⟩


/-- C9: on a controller bound to a device, `touched` returns and leaves the
stored touch count and the X, Y, id and event arrays as they were; the device
keeps its address and behaviour, and its log grows by exactly one transaction,
a write of the single byte 0x02 (NUMTOUCHES) followed by a one-byte read. -/
theorem C9_touched_frame (s : Adafruit_CST8XX) (dev : Adafruit_I2CDevice)
    (hd : s.i2c_dev = some dev) :
    ∃ s' n dev', touched s = some (s', n) ∧
      s'.touches = s.touches ∧ s'.touchX = s.touchX ∧ s'.touchY = s.touchY ∧
      s'.touchID = s.touchID ∧ s'.event = s.event ∧
      s'.i2c_dev = some dev' ∧ dev'.addr = dev.addr ∧
      dev'.wire.ack = dev.wire.ack ∧ dev'.wire.rx = dev.wire.rx ∧
      dev'.wire.log = dev.wire.log ++ [Txn.write_then_read dev.addr [0x02] 1] :=
  ⟨_, _, _, touched_eq s dev hd, rfl, rfl, rfl, rfl, rfl, rfl, rfl, rfl, rfl, rfl⟩

/-- C9 on a controller with a stale count of 3 while the bus reports 4: the
count stays 3, the arrays stay, and the log holds the one NUMTOUCHES read. -/
theorem C9_touched_frame_witness :
    ∃ s' dev', touched (staleCtl [[4]]) = some (s', 4) ∧
      s'.touches = 3 ∧ s'.touchX = staleX ∧ s'.touchY = staleY ∧
      s'.touchID = staleID ∧ s'.event = staleEvent ∧
      s'.i2c_dev = some dev' ∧
      dev'.wire.log = [Txn.write_then_read 0x15 [0x02] 1] := by
  obtain ⟨s', n, dev', ht, h1, h2, h3, h4, h5, h6, _, _, _, h7⟩ :=
    C9_touched_frame (staleCtl [[4]]) (scriptedDev true [[4]]) rfl
  have hn : n = 4 := by
    have h : touched (staleCtl [[4]]) =
        some ({ staleCtl [[4]] with i2c_dev := some (polledDev [[4]]) }, 4) := rfl
    rw [h] at ht
    simp only [Option.some.injEq, Prod.mk.injEq] at ht
    exact ht.2.symm
  subst hn
  exact ⟨s', dev', ht, h1, h2, h3, h4, h5, h6, h7⟩

theorem decoded_coord_le (b : List Nat) (s : Adafruit_CST8XX) (k : Nat)
    (hb : ∀ i, b.getD i 0 < 256) (j : Fin MAX_TOUCHES) (hj : j.val < k) :
    (decoded b s k).touchX j ≤ 4095 ∧ (decoded b s k).touchY j ≤ 4095 := by
  obtain ⟨hx, hy, _, _⟩ := decoded_fields b s k hb j hj
  rw [hx, hy]
  exact ⟨Nat.le_of_lt_succ (coord_lt _ _ (hb _)), Nat.le_of_lt_succ (coord_lt _ _ (hb _))⟩

/-- The result of `readData` on a bound controller, as the closed form over
the buffer the bus delivers. -/
theorem readData_decoded (s : Adafruit_CST8XX) (dev : Adafruit_I2CDevice)
    (hd : s.i2c_dev = some dev) :
    ∃ (b : List Nat) (s2 : Adafruit_CST8XX) (c : Nat),
      readData s = some (decoded b s2 c) ∧ (∀ i, b.getD i 0 < 256) ∧ b.length = 6 * c ∧
      c ≤ MAX_TOUCHES ∧ s2.touches = c ∧
      s2.touchX = s.touchX ∧ s2.touchY = s.touchY ∧ s2.touchID = s.touchID ∧
      s2.event = s.event := by
  obtain ⟨s1, c, dev1, ht, hd1⟩ := touched_of_bound s dev hd
  obtain ⟨hc, dev0, _, hs1⟩ := touched_inv s s1 c ht
  have hr := readData_eq s s1 dev1 c (List.replicate (c * 6) 0) (by simp) ht hd1
  refine ⟨_, _, c, hr, write_then_read_getD_lt _ _ _ _ _ (by simp), ?_, hc, rfl, ?_, ?_, ?_, ?_⟩
  · rw [write_then_read_length _ _ _ _ _ (by simp), Nat.mul_comm]
  · show s1.touchX = s.touchX
    rw [hs1]
  · show s1.touchY = s.touchY
    rw [hs1]
  · show s1.touchID = s.touchID
    rw [hs1]
  · show s1.event = s.event
    rw [hs1]

/-- C10: on a controller bound to a device `getPoint` returns, and every X and
Y value written by the decode (slots below the new count) is at most 4095.
If all stored coordinates were at most 4095 before the call, they are so after
it, the returned point has `0 <= x <= 4095` and `0 <= y <= 4095`, and the
conversion to `int16_t` leaves every stored coordinate unchanged. -/
theorem C10_coordinates_12bit (s : Adafruit_CST8XX) (dev : Adafruit_I2CDevice) (n : Nat)
    (hd : s.i2c_dev = some dev) :
    ∃ s' p, getPoint s n = some (s', p) ∧
      (∀ i : Fin MAX_TOUCHES, i.val < s'.touches →
        s'.touchX i ≤ 4095 ∧ s'.touchY i ≤ 4095) ∧
      (coordsInRange s →
        coordsInRange s' ∧ 0 ≤ p.x ∧ p.x ≤ 4095 ∧ 0 ≤ p.y ∧ p.y ≤ 4095 ∧
        (∀ i : Fin MAX_TOUCHES, toInt16 (s'.touchX i) = (s'.touchX i : Int) ∧
          toInt16 (s'.touchY i) = (s'.touchY i : Int)) ∧
        (p.z = 1 → ∃ hn : n < MAX_TOUCHES,
          p.x = (s'.touchX ⟨n, hn⟩ : Int) ∧ p.y = (s'.touchY ⟨n, hn⟩ : Int))) := by
  obtain ⟨b, s2, c, hr, hb, _, _, hc, hX, hY, _, _⟩ := readData_decoded s dev hd
  have hwritten : ∀ i : Fin MAX_TOUCHES, i.val < (decoded b s2 c).touches →
      (decoded b s2 c).touchX i ≤ 4095 ∧ (decoded b s2 c).touchY i ≤ 4095 := by
    intro i hi
    have hi2 : i.val < c := by
      have : (decoded b s2 c).touches = c := hc
      omega
    exact decoded_coord_le b s2 c hb i hi2
  have hinv : coordsInRange s → coordsInRange (decoded b s2 c) := by
    intro h i
    by_cases hi : i.val < c
    · exact decoded_coord_le b s2 c hb i hi
    · obtain ⟨hx, hy, _, _⟩ := decoded_stale b s2 c i (by omega)
      rw [hx, hy, hX, hY]
      exact h i
  have hconv : coordsInRange (decoded b s2 c) → ∀ i : Fin MAX_TOUCHES,
      toInt16 ((decoded b s2 c).touchX i) = ((decoded b s2 c).touchX i : Int) ∧
      toInt16 ((decoded b s2 c).touchY i) = ((decoded b s2 c).touchY i : Int) := by
    intro h i
    exact ⟨toInt16_of_lt _ (by have := (h i).1; omega),
      toInt16_of_lt _ (by have := (h i).2; omega)⟩
  by_cases hnull : (decoded b s2 c).touches = 0 ∨ 1 < n
  · refine ⟨_, _, getPoint_null s _ n hr hnull, hwritten, fun h => ⟨hinv h, ?_⟩⟩
    refine ⟨by decide, by decide, by decide, by decide, hconv (hinv h), ?_⟩
    intro hz
    exact absurd hz (by decide)
  · have ht0 : (decoded b s2 c).touches ≠ 0 := fun h => hnull (Or.inl h)
    have hn1 : n ≤ 1 := by
      by_contra h
      exact hnull (Or.inr (by omega))
    have hn : n < MAX_TOUCHES := Nat.lt_of_le_of_lt hn1 (by decide)
    refine ⟨_, _, getPoint_slot s _ n hr ht0 hn1, hwritten, fun h => ⟨hinv h, ?_⟩⟩
    have hcx := (hconv (hinv h) ⟨n, hn⟩).1
    have hcy := (hconv (hinv h) ⟨n, hn⟩).2
    have hbx := (hinv h ⟨n, hn⟩).1
    have hby := (hinv h ⟨n, hn⟩).2
    have px : (TS_Point.new (toInt16 ((decoded b s2 c).touchX ⟨n, hn⟩))
        (toInt16 ((decoded b s2 c).touchY ⟨n, hn⟩)) 1
        ((decoded b s2 c).touchID ⟨n, hn⟩) ((decoded b s2 c).event ⟨n, hn⟩)).x =
        ((decoded b s2 c).touchX ⟨n, hn⟩ : Int) := hcx
    have py : (TS_Point.new (toInt16 ((decoded b s2 c).touchX ⟨n, hn⟩))
        (toInt16 ((decoded b s2 c).touchY ⟨n, hn⟩)) 1
        ((decoded b s2 c).touchID ⟨n, hn⟩) ((decoded b s2 c).event ⟨n, hn⟩)).y =
        ((decoded b s2 c).touchY ⟨n, hn⟩ : Int) := hcy
    refine ⟨?_, ?_, ?_, ?_, hconv (hinv h), fun _ => ⟨hn, px, py⟩⟩
    · rw [px]; omega
    · rw [px]; omega
    · rw [py]; omega
    · rw [py]; omega


theorem staleCtl_coordsInRange (script : List (List Nat)) : coordsInRange (staleCtl script) := by
  intro i
  show staleX i ≤ 4095 ∧ staleY i ≤ 4095
  revert i
  decide

/-- C10 at the largest record bytes: count 1 and data `[0xFF,0xFF,0xFF,0xFF,0,0]`
on a controller whose stale coordinates are in range give the point
`(4095, 4095)` and keep all stored coordinates in range. -/
theorem C10_coordinates_12bit_witness :
    ∃ s' p, getPoint (staleCtl [[1], [0xFF, 0xFF, 0xFF, 0xFF, 0, 0]]) 0 = some (s', p) ∧
      coordsInRange s' ∧ 0 ≤ p.x ∧ p.x ≤ 4095 ∧ 0 ≤ p.y ∧ p.y ≤ 4095 := by
  obtain ⟨s', p, hg, _, h⟩ := C10_coordinates_12bit
    (staleCtl [[1], [0xFF, 0xFF, 0xFF, 0xFF, 0, 0]])
    (scriptedDev true [[1], [0xFF, 0xFF, 0xFF, 0xFF, 0, 0]]) 0 rfl
  obtain ⟨h1, h2, h3, h4, h5, _⟩ := h (staleCtl_coordsInRange _)
  exact ⟨s', p, hg, h1, h2, h3, h4, h5⟩


/-! ### `readData` in terms of the two bus transactions -/

theorem write_then_read_one (dev dev1 : Adafruit_I2CDevice) (wb : List Nat) (wl x r : Nat)
    (h : dev.write_then_read wb wl [x] 1 = (dev1, [r])) :
    dev1 = (dev.write_then_read wb wl [x] 1).1 ∧
    dev.wire.rx (dev.wire.log ++ [Txn.write_then_read dev.addr (wb.take wl) 1]) 0 % 256 = r := by
  refine ⟨by rw [h], ?_⟩
  have h2 := congrArg Prod.snd h
  simpa [Adafruit_I2CDevice.write_then_read, List.range_succ] using h2

theorem write_then_read_log (dev dev1 : Adafruit_I2CDevice) (wb : List Nat) (wl : Nat)
    (buf b : List Nat) (n : Nat) (h : dev.write_then_read wb wl buf n = (dev1, b)) :
    dev1.addr = dev.addr ∧ dev1.wire.ack = dev.wire.ack ∧ dev1.wire.rx = dev.wire.rx ∧
    dev1.wire.log = dev.wire.log ++ [Txn.write_then_read dev.addr (wb.take wl) n] := by
  have h1 : dev1 = (dev.write_then_read wb wl buf n).1 := by rw [h]
  subst h1
  exact ⟨rfl, rfl, rfl, rfl⟩

/-- The result of `readData` when the NUMTOUCHES read delivers the byte `r` and
the TOUCHDATA read delivers the buffer `b`. -/
theorem readData_dev (s : Adafruit_CST8XX) (dev0 dev1 dev2 : Adafruit_I2CDevice)
    (r c : Nat) (buf b : List Nat)
    (hd : s.i2c_dev = some dev0)
    (hr : dev0.write_then_read [CST8XX_REG_NUMTOUCHES] 1 [CST8XX_REG_NUMTOUCHES] 1 = (dev1, [r]))
    (hc : c = if r > MAX_TOUCHES then 0 else r)
    (hbuf : buf.length = 6 * c)
    (hb : dev1.write_then_read [CST8XX_REG_TOUCHDATA] 1 buf (6 * c) = (dev2, b)) :
    touched s = some ({ s with i2c_dev := some dev1 }, c) ∧
    readData s = some (decoded b { s with touches := c, i2c_dev := some dev2 } c) ∧
    (∀ j, b.getD j 0 < 256) ∧ b.length = 6 * c ∧ c ≤ MAX_TOUCHES := by
  obtain ⟨h1, h2⟩ := write_then_read_one dev0 dev1 _ 1 _ r hr
  have ht : touched s = some ({ s with i2c_dev := some dev1 }, c) := by
    rw [touched_eq s dev0 hd, h1, hc]
    simp only [List.take, ← h2]
  have hb1 : dev2 = (dev1.write_then_read [CST8XX_REG_TOUCHDATA] 1 buf (6 * c)).1 := by rw [hb]
  have hb2 : b = (dev1.write_then_read [CST8XX_REG_TOUCHDATA] 1 buf (6 * c)).2 := by rw [hb]
  have hrd := readData_eq s _ dev1 c buf (by omega) ht rfl
  rw [Nat.mul_comm c 6, ← hb1, ← hb2] at hrd
  refine ⟨ht, hrd, ?_, ?_, (touched_inv s _ c ht).1⟩
  · intro j
    rw [hb2]
    exact write_then_read_getD_lt _ _ _ _ _ (by omega) j
  · rw [hb2]
    exact write_then_read_length _ _ _ _ _ hbuf

/-- Every bound device answers the two reads of `readData` with some byte `r`
and some buffer `b`. -/
theorem exists_reads (dev0 : Adafruit_I2CDevice) :
    ∃ (dev1 dev2 : Adafruit_I2CDevice) (r c : Nat) (b : List Nat),
      dev0.write_then_read [CST8XX_REG_NUMTOUCHES] 1 [CST8XX_REG_NUMTOUCHES] 1 = (dev1, [r]) ∧
      (c = if r > MAX_TOUCHES then 0 else r) ∧
      dev1.write_then_read [CST8XX_REG_TOUCHDATA] 1 (List.replicate (6 * c) 0) (6 * c)
        = (dev2, b) := by
  refine ⟨(dev0.write_then_read [CST8XX_REG_NUMTOUCHES] 1 [CST8XX_REG_NUMTOUCHES] 1).1, _,
    dev0.wire.rx (dev0.wire.log ++
      [Txn.write_then_read dev0.addr [CST8XX_REG_NUMTOUCHES] 1]) 0 % 256, _, _, ?_, rfl, rfl⟩
  simp [Adafruit_I2CDevice.write_then_read, List.range_succ]

theorem decoded_idem (b : List Nat) (s2 : Adafruit_CST8XX) (c : Nat)
    (d : Option Adafruit_I2CDevice) :
    (decoded b { decoded b s2 c with touches := c, i2c_dev := d } c).touchX
      = (decoded b s2 c).touchX ∧
    (decoded b { decoded b s2 c with touches := c, i2c_dev := d } c).touchY
      = (decoded b s2 c).touchY ∧
    (decoded b { decoded b s2 c with touches := c, i2c_dev := d } c).touchID
      = (decoded b s2 c).touchID ∧
    (decoded b { decoded b s2 c with touches := c, i2c_dev := d } c).event
      = (decoded b s2 c).event := by
  refine ⟨?_, ?_, ?_, ?_⟩ <;>
  · funext j
    by_cases hj : j.val < c <;> simp [decoded, hj]

/-- The point returned by `getPoint` depends only on the slot index and on the
count and arrays left by `readData`. -/
theorem getPoint_congr (s t s' t' : Adafruit_CST8XX) (n : Nat)
    (hrs : readData s = some s') (hrt : readData t = some t')
    (hc : s'.touches = t'.touches) (hX : s'.touchX = t'.touchX) (hY : s'.touchY = t'.touchY)
    (hI : s'.touchID = t'.touchID) (hE : s'.event = t'.event) :
    ∃ p, getPoint s n = some (s', p) ∧ getPoint t n = some (t', p) := by
  by_cases h : s'.touches = 0 ∨ 1 < n
  · exact ⟨_, getPoint_null s s' n hrs h, getPoint_null t t' n hrt (hc ▸ h)⟩
  · have ht0 : s'.touches ≠ 0 := fun h0 => h (Or.inl h0)
    have hn1 : n ≤ 1 := by
      by_contra h1
      exact h (Or.inr (by omega))
    refine ⟨_, getPoint_slot s s' n hrs ht0 hn1, ?_⟩
    rw [hX, hY, hI, hE]
    exact getPoint_slot t t' n hrt (hc ▸ ht0) hn1


/-- C11: let two consecutive `getPoint n` calls be made on a bound controller,
and let the bus answer both polls alike: the NUMTOUCHES read delivers the same
byte `r` and the TOUCHDATA read the same buffer `b`.  Then both calls return,
the two points are equal (all five fields), and the count and the X, Y, id and
event arrays after the second call equal those after the first.  The device
handle keeps its address; only its transaction log grows. -/
theorem C11_getPoint_twice (s : Adafruit_CST8XX) (n r c : Nat)
    (dev0 dev1 dev2 dev3 dev4 : Adafruit_I2CDevice) (buf buf2 b : List Nat)
    (hd : s.i2c_dev = some dev0)
    (hr1 : dev0.write_then_read [0x02] 1 [0x02] 1 = (dev1, [r]))
    (hc : c = if r > 5 then 0 else r)
    (hbuf : buf.length = 6 * c)
    (hb1 : dev1.write_then_read [0x03] 1 buf (6 * c) = (dev2, b))
    (hr2 : dev2.write_then_read [0x02] 1 [0x02] 1 = (dev3, [r]))
    (hbuf2 : buf2.length = 6 * c)
    (hb2 : dev3.write_then_read [0x03] 1 buf2 (6 * c) = (dev4, b)) :
    ∃ sA sB p, getPoint s n = some (sA, p) ∧ getPoint sA n = some (sB, p) ∧
      sB.touches = sA.touches ∧ sB.touchX = sA.touchX ∧ sB.touchY = sA.touchY ∧
      sB.touchID = sA.touchID ∧ sB.event = sA.event ∧
      sA.i2c_dev = some dev2 ∧ sB.i2c_dev = some dev4 ∧ dev4.addr = dev2.addr := by
  obtain ⟨_, hrA, _, _, _⟩ := readData_dev s dev0 dev1 dev2 r c buf b hd hr1 hc hbuf hb1
  obtain ⟨_, hrB, _, _, _⟩ := readData_dev
    (decoded b { s with touches := c, i2c_dev := some dev2 } c) dev2 dev3 dev4 r c buf2 b
    rfl hr2 hc hbuf2 hb2
  obtain ⟨hX, hY, hI, hE⟩ := decoded_idem b { s with touches := c, i2c_dev := some dev2 } c
    (some dev4)
  obtain ⟨p, hpA, hpB⟩ := getPoint_congr s _ _ _ n hrA hrB rfl hX.symm hY.symm hI.symm hE.symm
  have ha3 := (write_then_read_log dev2 dev3 _ _ _ _ _ hr2).1
  have ha4 := (write_then_read_log dev3 dev4 _ _ _ _ _ hb2).1
  exact ⟨_, _, p, hpA, hpB, rfl, hX, hY, hI, hE, rfl, rfl, by rw [ha4, ha3]⟩


/-- C11 on a bus that reports the same single touch
`[0x81,0x64,0x32,0xC8,0,0]` to two consecutive polls: both `getPoint 0` calls
return `(356, 712, 1, id 3, TOUCHING)` and leave the same arrays. -/
theorem C11_getPoint_twice_witness :
    ∃ sA sB, getPoint (staleCtl twoPolls) 0 =
        some (sA, { x := 356, y := 712, z := 1, id := 3, event := Events.TOUCHING }) ∧
      getPoint sA 0 =
        some (sB, { x := 356, y := 712, z := 1, id := 3, event := Events.TOUCHING }) ∧
      sB.touches = sA.touches ∧ sB.touchX = sA.touchX ∧ sB.touchY = sA.touchY ∧
      sB.touchID = sA.touchID ∧ sB.event = sA.event := by
  obtain ⟨sA, sB, p, hA, hB, h1, h2, h3, h4, h5, _⟩ := C11_getPoint_twice
    (staleCtl twoPolls) 0 1 1
    (scriptedDev true twoPolls)
    (afterCount (scriptedDev true twoPolls))
    (afterData (afterCount (scriptedDev true twoPolls)) 1)
    (afterCount (afterData (afterCount (scriptedDev true twoPolls)) 1))
    (afterData (afterCount (afterData (afterCount (scriptedDev true twoPolls)) 1)) 1)
    (List.replicate 6 0) (List.replicate 6 0) [0x81, 0x64, 0x32, 0xC8, 0x00, 0x00]
    rfl rfl rfl rfl rfl rfl rfl rfl
  have hp : (getPoint (staleCtl twoPolls) 0).map Prod.snd =
      some { x := 356, y := 712, z := 1, id := 3, event := Events.TOUCHING } := by decide
  rw [hA] at hp
  simp only [Option.map_some', Option.some.injEq] at hp
  subst hp
  exact ⟨sA, sB, hA, hB, h1, h2, h3, h4, h5⟩


theorem getPoint_of_readData (s s' : Adafruit_CST8XX) (n : Nat) (hr : readData s = some s') :
    ∃ p, getPoint s n = some (s', p) := by
  obtain ⟨p, hp, _⟩ := getPoint_congr s s s' s' n hr hr rfl rfl rfl rfl rfl
  exact ⟨p, hp⟩

theorem decoded_below (b : List Nat) (s t : Adafruit_CST8XX) (k : Nat)
    (j : Fin MAX_TOUCHES) (hj : j.val < k) :
    (decoded b s k).touchX j = (decoded b t k).touchX j ∧
    (decoded b s k).touchY j = (decoded b t k).touchY j ∧
    (decoded b s k).touchID j = (decoded b t k).touchID j ∧
    (decoded b s k).event j = (decoded b t k).event j := by
  simp [decoded, hj]

/-- C12, refuted as stated: two controllers on the same device, polled with
the same bus answers (one touch), end with different contents in slot 4 of the
X array: each keeps the value it held before the call (905 and 0). -/
theorem C12_counterexample :
    (staleCtl oneTouch).i2c_dev = (blankCtl oneTouch).i2c_dev ∧
    (getPoint (staleCtl oneTouch) 0).map (fun r => r.1.touchX 4) = some 905 ∧
    (getPoint (blankCtl oneTouch) 0).map (fun r => r.1.touchX 4) = some 0 ∧
    (getPoint (staleCtl oneTouch) 0).map (fun r => r.1.touchX 0) = some 356 ∧
    (getPoint (blankCtl oneTouch) 0).map (fun r => r.1.touchX 0) = some 356 := by
  refine ⟨rfl, ?_, ?_, ?_, ?_⟩ <;> decide

/-- C12, amended: for two controllers bound to the same device (hence the same
bus answers), `getPoint n` returns on both, leaves the same count `c` in both,
and every slot below `c` of the X, Y, id and event arrays is the same in both
whatever they held before; every slot at or above `c` keeps, in each
controller, the value it held before the call. -/
theorem C12_slots_below_count_overwritten (s t : Adafruit_CST8XX)
    (dev0 : Adafruit_I2CDevice) (n : Nat)
    (hs : s.i2c_dev = some dev0) (ht : t.i2c_dev = some dev0) :
    ∃ sA p tA q, getPoint s n = some (sA, p) ∧ getPoint t n = some (tA, q) ∧
      sA.touches = tA.touches ∧
      (∀ i : Fin MAX_TOUCHES, i.val < sA.touches →
        sA.touchX i = tA.touchX i ∧ sA.touchY i = tA.touchY i ∧
        sA.touchID i = tA.touchID i ∧ sA.event i = tA.event i) ∧
      (∀ i : Fin MAX_TOUCHES, sA.touches ≤ i.val →
        (sA.touchX i = s.touchX i ∧ sA.touchY i = s.touchY i ∧
          sA.event i = s.event i ∧ sA.touchID i = s.touchID i) ∧
        (tA.touchX i = t.touchX i ∧ tA.touchY i = t.touchY i ∧
          tA.event i = t.event i ∧ tA.touchID i = t.touchID i)) := by
  obtain ⟨dev1, dev2, r, c, b, hr, hc, hb⟩ := exists_reads dev0
  obtain ⟨_, hrs, _, _, _⟩ := readData_dev s dev0 dev1 dev2 r c _ b hs hr hc (by simp) hb
  obtain ⟨_, hrt, _, _, _⟩ := readData_dev t dev0 dev1 dev2 r c _ b ht hr hc (by simp) hb
  obtain ⟨p, hp⟩ := getPoint_of_readData s _ n hrs
  obtain ⟨q, hq⟩ := getPoint_of_readData t _ n hrt
  refine ⟨_, p, _, q, hp, hq, rfl, ?_, ?_⟩
  · intro i hi
    exact decoded_below b _ _ c i hi
  · intro i hi
    exact ⟨decoded_stale b _ c i hi, decoded_stale b _ c i hi⟩

/-- C12 amended, on the two controllers of the counterexample: both end with
count 1, slot 0 agrees, and slots 1..4 keep what each controller held. -/
theorem C12_slots_below_count_overwritten_witness :
    ∃ sA p tA q, getPoint (staleCtl oneTouch) 0 = some (sA, p) ∧
      getPoint (blankCtl oneTouch) 0 = some (tA, q) ∧
      sA.touches = tA.touches ∧
      (∀ i : Fin MAX_TOUCHES, i.val < sA.touches →
        sA.touchX i = tA.touchX i ∧ sA.touchY i = tA.touchY i ∧
        sA.touchID i = tA.touchID i ∧ sA.event i = tA.event i) ∧
      (∀ i : Fin MAX_TOUCHES, sA.touches ≤ i.val →
        (sA.touchX i = staleX i ∧ sA.touchY i = staleY i ∧
          sA.event i = staleEvent i ∧ sA.touchID i = staleID i) ∧
        (tA.touchX i = 0 ∧ tA.touchY i = 0 ∧
          tA.event i = Events.PRESS ∧ tA.touchID i = 0)) :=
  C12_slots_below_count_overwritten (staleCtl oneTouch) (blankCtl oneTouch)
    (scriptedDev true oneTouch) 0 rfl rfl


theorem decoded_bytes (b b2 : List Nat) (s t : Adafruit_CST8XX) (k : Nat)
    (hsame : ∀ j, j % 6 < 4 → b.getD j 0 = b2.getD j 0)
    (hX : s.touchX = t.touchX) (hY : s.touchY = t.touchY)
    (hI : s.touchID = t.touchID) (hE : s.event = t.event) :
    (decoded b s k).touchX = (decoded b2 t k).touchX ∧
    (decoded b s k).touchY = (decoded b2 t k).touchY ∧
    (decoded b s k).touchID = (decoded b2 t k).touchID ∧
    (decoded b s k).event = (decoded b2 t k).event := by
  have e0 : ∀ j : Nat, b.getD (j * 6) 0 = b2.getD (j * 6) 0 :=
    fun j => hsame _ (by omega)
  have e1 : ∀ j : Nat, b.getD (1 + j * 6) 0 = b2.getD (1 + j * 6) 0 :=
    fun j => hsame _ (by omega)
  have e2 : ∀ j : Nat, b.getD (2 + j * 6) 0 = b2.getD (2 + j * 6) 0 :=
    fun j => hsame _ (by omega)
  have e3 : ∀ j : Nat, b.getD (3 + j * 6) 0 = b2.getD (3 + j * 6) 0 :=
    fun j => hsame _ (by omega)
  refine ⟨?_, ?_, ?_, ?_⟩ <;>
  · funext j
    simp only [decoded, e0, e1, e2, e3, hX, hY, hI, hE]

/-- C13: take one prior controller state on two buses that both report the
count byte `r` and deliver data buffers `b` and `b2` which agree at every
offset `j` with `j % 6 < 4` (they may differ only in bytes 4 and 5 of each
record).  Then `getPoint n` returns the same point on both and leaves the same
count and the same X, Y, id and event arrays. -/
theorem C13_bytes_4_5_ignored (s : Adafruit_CST8XX) (n r c : Nat)
    (dS0 dS1 dS2 dT0 dT1 dT2 : Adafruit_I2CDevice) (bufS bufT b b2 : List Nat)
    (hd : s.i2c_dev = some dS0)
    (hrS : dS0.write_then_read [0x02] 1 [0x02] 1 = (dS1, [r]))
    (hrT : dT0.write_then_read [0x02] 1 [0x02] 1 = (dT1, [r]))
    (hc : c = if r > 5 then 0 else r)
    (hbufS : bufS.length = 6 * c) (hbufT : bufT.length = 6 * c)
    (hbS : dS1.write_then_read [0x03] 1 bufS (6 * c) = (dS2, b))
    (hbT : dT1.write_then_read [0x03] 1 bufT (6 * c) = (dT2, b2))
    (hsame : ∀ j, j % 6 < 4 → b.getD j 0 = b2.getD j 0) :
    ∃ sA tA p, getPoint s n = some (sA, p) ∧
      getPoint { s with i2c_dev := some dT0 } n = some (tA, p) ∧
      tA.touches = sA.touches ∧ tA.touchX = sA.touchX ∧ tA.touchY = sA.touchY ∧
      tA.touchID = sA.touchID ∧ tA.event = sA.event := by
  obtain ⟨_, hrs, _, _, _⟩ := readData_dev s dS0 dS1 dS2 r c bufS b hd hrS hc hbufS hbS
  obtain ⟨_, hrt, _, _, _⟩ := readData_dev { s with i2c_dev := some dT0 } dT0 dT1 dT2 r c
    bufT b2 rfl hrT hc hbufT hbT
  obtain ⟨hX, hY, hI, hE⟩ := decoded_bytes b b2
    { s with touches := c, i2c_dev := some dS2 }
    { s with touches := c, i2c_dev := some dT2 } c hsame rfl rfl rfl rfl
  obtain ⟨p, hp, hq⟩ := getPoint_congr s _ _ _ n hrs hrt rfl hX hY hI hE
  exact ⟨_, _, p, hp, hq, rfl, hX.symm, hY.symm, hI.symm, hE.symm⟩

theorem oneTouch_tail_agree (j : Nat) (hj : j % 6 < 4) :
    [0x81, 0x64, 0x32, 0xC8, 0x00, 0x00].getD j 0 = [0x81, 0x64, 0x32, 0xC8, 0xAB, 0xCD].getD j 0 := by
  match j, hj with
  | 0, _ => rfl
  | 1, _ => rfl
  | 2, _ => rfl
  | 3, _ => rfl
  | 4, h => exact absurd h (by decide)
  | 5, h => exact absurd h (by decide)
  | _ + 6, _ => rfl

/-- C13 on two buses that report the same single touch but bytes 4 and 5 of
the record are `0x00, 0x00` on one and `0xAB, 0xCD` on the other: the point is
`(356, 712, 1, id 3, TOUCHING)` on both and the arrays agree. -/
theorem C13_bytes_4_5_ignored_witness :
    ∃ sA tA, getPoint (staleCtl oneTouch) 0 =
        some (sA, { x := 356, y := 712, z := 1, id := 3, event := Events.TOUCHING }) ∧
      getPoint (staleCtl oneTouchOtherTail) 0 =
        some (tA, { x := 356, y := 712, z := 1, id := 3, event := Events.TOUCHING }) ∧
      tA.touches = sA.touches ∧ tA.touchX = sA.touchX ∧ tA.touchY = sA.touchY ∧
      tA.touchID = sA.touchID ∧ tA.event = sA.event := by
  obtain ⟨sA, tA, p, hA, hB, h⟩ := C13_bytes_4_5_ignored (staleCtl oneTouch) 0 1 1
    (scriptedDev true oneTouch) (afterCount (scriptedDev true oneTouch))
    (afterData (afterCount (scriptedDev true oneTouch)) 1)
    (scriptedDev true oneTouchOtherTail) (afterCount (scriptedDev true oneTouchOtherTail))
    (afterData (afterCount (scriptedDev true oneTouchOtherTail)) 1)
    (List.replicate 6 0) (List.replicate 6 0)
    [0x81, 0x64, 0x32, 0xC8, 0x00, 0x00] [0x81, 0x64, 0x32, 0xC8, 0xAB, 0xCD]
    rfl rfl rfl rfl rfl rfl rfl rfl oneTouch_tail_agree
  have hp : (getPoint (staleCtl oneTouch) 0).map Prod.snd =
      some { x := 356, y := 712, z := 1, id := 3, event := Events.TOUCHING } := by decide
  rw [hA] at hp
  simp only [Option.map_some', Option.some.injEq] at hp
  subst hp
  exact ⟨sA, tA, hA, hB, h⟩


/-- C14: on a controller bound to `dev`, for every slot index `n`, `getPoint n`
returns and the device log grows by exactly two transactions: the one-byte
NUMTOUCHES read of `touched`, then one write-then-read that writes the single
byte 0x03 and requests `6 * c` bytes, `c` being the value `touched` returns.
The length is at most 30, so the product in `uint8_t` does not wrap, and it is
0 when the count is 0. -/
theorem C14_getPoint_transactions (s : Adafruit_CST8XX) (dev : Adafruit_I2CDevice) (n : Nat)
    (hd : s.i2c_dev = some dev) :
    ∃ s1 c sA p devA, touched s = some (s1, c) ∧ getPoint s n = some (sA, p) ∧
      sA.touches = c ∧ sA.i2c_dev = some devA ∧
      devA.wire.log = dev.wire.log ++
        [Txn.write_then_read dev.addr [0x02] 1, Txn.write_then_read dev.addr [0x03] (6 * c)] ∧
      6 * c ≤ 30 ∧ (c * 6) % 256 = 6 * c ∧
      (c = 0 → devA.wire.log = dev.wire.log ++
        [Txn.write_then_read dev.addr [0x02] 1, Txn.write_then_read dev.addr [0x03] 0]) := by
  obtain ⟨dev1, dev2, r, c, b, hr, hc, hb⟩ := exists_reads dev
  obtain ⟨ht, hrd, _, _, hc5⟩ := readData_dev s dev dev1 dev2 r c _ b hd hr hc (by simp) hb
  obtain ⟨p, hp⟩ := getPoint_of_readData s _ n hrd
  obtain ⟨ha1, _, _, hl1⟩ := write_then_read_log dev dev1 _ _ _ _ _ hr
  obtain ⟨_, _, _, hl2⟩ := write_then_read_log dev1 dev2 _ _ _ _ _ hb
  have hc5b : c ≤ 5 := hc5
  have hlog : dev2.wire.log = dev.wire.log ++
      [Txn.write_then_read dev.addr [0x02] 1, Txn.write_then_read dev.addr [0x03] (6 * c)] := by
    rw [hl2, hl1, ha1, List.append_assoc]
    rfl
  refine ⟨_, c, _, p, dev2, ht, hp, rfl, rfl, hlog, by omega, by omega, ?_⟩
  intro h0
  rw [hlog, h0]

/-- C14 on a fresh bus reporting one touch, asked for slot 2: the log is the
NUMTOUCHES read followed by one TOUCHDATA read of 6 bytes. -/
theorem C14_getPoint_transactions_witness :
    ∃ sA p devA, getPoint (staleCtl oneTouch) 2 = some (sA, p) ∧ sA.i2c_dev = some devA ∧
      devA.wire.log =
        [Txn.write_then_read 0x15 [0x02] 1, Txn.write_then_read 0x15 [0x03] 6] := by
  obtain ⟨s1, c, sA, p, devA, ht, hp, _, hdA, hlog, _⟩ :=
    C14_getPoint_transactions (staleCtl oneTouch) (scriptedDev true oneTouch) 2 rfl
  have hc : c = 1 := by
    have h : (touched (staleCtl oneTouch)).map Prod.snd = some 1 := by decide
    rw [ht] at h
    simpa using h
  subst hc
  exact ⟨sA, p, devA, hp, hdA, hlog⟩

/-- C15: on a controller bound to a device `getPoint n` returns, and whenever
the refreshed count is 0 or `n > 1` the returned point is the null point with
the default id and event: x = y = z = 0, id = 0 and event = NONE, whatever
the arrays hold. -/
theorem C15_null_point_defaults (s : Adafruit_CST8XX) (dev : Adafruit_I2CDevice) (n : Nat)
    (hd : s.i2c_dev = some dev) :
    ∃ sA p, getPoint s n = some (sA, p) ∧
      (sA.touches = 0 ∨ 1 < n →
        p.x = 0 ∧ p.y = 0 ∧ p.z = 0 ∧ p.id = 0 ∧ p.event = Events.NONE) ∧
      (p.z = 0 → p.id = 0 ∧ p.event = Events.NONE) := by
  obtain ⟨sA, hr⟩ := readData_of_bound s dev hd
  by_cases h : sA.touches = 0 ∨ 1 < n
  · exact ⟨sA, _, getPoint_null s sA n hr h, fun _ => ⟨rfl, rfl, rfl, rfl, rfl⟩,
      fun _ => ⟨rfl, rfl⟩⟩
  · have ht0 : sA.touches ≠ 0 := fun h0 => h (Or.inl h0)
    have hn1 : n ≤ 1 := by
      by_contra h1
      exact h (Or.inr (by omega))
    refine ⟨sA, _, getPoint_slot s sA n hr ht0 hn1, fun h2 => absurd h2 h, ?_⟩
    intro hz
    have h10 : (1 : Int) = 0 := hz
    exact absurd h10 (by decide)

/-- C15 on a controller with populated stale arrays (ids 7, 6, 5, ...), a bus
reporting one touch, and slot 2: the point is `(0, 0, 0)` with id 0 and event
NONE. -/
theorem C15_null_point_defaults_witness :
    ∃ sA, getPoint (staleCtl oneTouch) 2 =
      some (sA, { x := 0, y := 0, z := 0, id := 0, event := Events.NONE }) := by
  obtain ⟨sA, p, hp, h, _⟩ :=
    C15_null_point_defaults (staleCtl oneTouch) (scriptedDev true oneTouch) 2 rfl
  obtain ⟨h1, h2, h3, h4, h5⟩ := h (Or.inr (by decide))
  refine ⟨sA, ?_⟩
  rw [hp]
  cases p
  simp only [Option.some.injEq, Prod.mk.injEq, TS_Point.mk.injEq, true_and]
  exact ⟨h1, h2, h3, h4, h5⟩

/-- C16: if the bus probe fails, `begin` returns false, and the device it
leaves bound has a log that is the log before the call followed by the probe
alone: no CHIPTYPE read was made. -/
theorem C16_begin_probe_fails (s : Adafruit_CST8XX) (theWire : TwoWire) (i2c_addr : Nat)
    (dev1 : Adafruit_I2CDevice)
    (hp : Adafruit_I2CDevice.begin { addr := i2c_addr, wire := theWire } = (dev1, false)) :
    begin s theWire i2c_addr = some ({ s with i2c_dev := some dev1 }, false) ∧
    dev1.wire.log = theWire.log ++ [Txn.probe i2c_addr] := by
  constructor
  · simp only [begin, hp, bind, Option.bind, pure]
    rfl
  · have h1 : dev1 = (Adafruit_I2CDevice.begin { addr := i2c_addr, wire := theWire }).1 := by
      rw [hp]
    rw [h1]
    rfl

/-- C16 on a silent bus (probe not acknowledged) whose chip would answer 0x11:
`begin` returns false and the log holds the probe only. -/
theorem C16_begin_probe_fails_witness :
    ∃ s' dev', begin (staleCtl []) (scriptedWire false [[], [0x11]]) 0x15 = some (s', false) ∧
      s'.i2c_dev = some dev' ∧ dev'.wire.log = [Txn.probe 0x15] :=
  ⟨_, _, (C16_begin_probe_fails (staleCtl []) (scriptedWire false [[], [0x11]]) 0x15
    (Adafruit_I2CDevice.begin { addr := 0x15, wire := scriptedWire false [[], [0x11]] }).1
    rfl).1, rfl, rfl⟩


/-- C17, refuted as stated: the bus reports exactly one touch and slot 1 of
the arrays holds X = 40000 and Y = 65535 before the call; `getPoint 1` returns
x = -25536 and y = -1, not the stored values. -/
theorem C17_counterexample :
    (garbageCtl oneTouch).touchX 1 = 40000 ∧ (garbageCtl oneTouch).touchY 1 = 65535 ∧
    (touched (garbageCtl oneTouch)).map Prod.snd = some 1 ∧
    (getPoint (garbageCtl oneTouch) 1).map Prod.snd =
      some { x := -25536, y := -1, z := 1, id := 6, event := Events.RELEASE } := by
  refine ⟨rfl, rfl, ?_, ?_⟩ <;> decide

/-- C17, amended: if the touch count obtained during the call is exactly 1,
`getPoint 1` returns a point with z = 1 whose id and event are those of slot 1
of the arrays held before the call and whose x and y are the slot-1 X and Y
held before the call converted to `int16_t`; the conversion leaves a value
below 32768 unchanged.  Slot 1 of the arrays is not written by the call. -/
theorem C17_getPoint_one_stale (s s1 : Adafruit_CST8XX) (ht : touched s = some (s1, 1)) :
    ∃ sA p, getPoint s 1 = some (sA, p) ∧ p.z = 1 ∧
      p.x = toInt16 (s.touchX 1) ∧ p.y = toInt16 (s.touchY 1) ∧
      p.id = s.touchID 1 ∧ p.event = s.event 1 ∧
      (s.touchX 1 < 32768 → p.x = (s.touchX 1 : Int)) ∧
      (s.touchY 1 < 32768 → p.y = (s.touchY 1 : Int)) ∧
      sA.touchX 1 = s.touchX 1 ∧ sA.touchY 1 = s.touchY 1 ∧
      sA.touchID 1 = s.touchID 1 ∧ sA.event 1 = s.event 1 := by
  obtain ⟨_, dev, _, hs1⟩ := touched_inv s s1 1 ht
  have hd1 : s1.i2c_dev = some (dev.write_then_read [CST8XX_REG_NUMTOUCHES] 1
      [CST8XX_REG_NUMTOUCHES] 1).1 := by rw [hs1]
  have hr := readData_eq s s1 _ 1 (List.replicate 6 0) rfl ht hd1
  have hg := getPoint_slot s _ 1 hr (show (1 : Nat) ≠ 0 from Nat.one_ne_zero) (Nat.le_refl 1)
  have hX : s1.touchX = s.touchX := by rw [hs1]
  have hY : s1.touchY = s.touchY := by rw [hs1]
  have hI : s1.touchID = s.touchID := by rw [hs1]
  have hE : s1.event = s.event := by rw [hs1]
  refine ⟨_, _, hg, rfl, ?_, ?_, ?_, ?_, ?_, ?_, ?_, ?_, ?_, ?_⟩
  · show toInt16 (s1.touchX 1) = _
    rw [hX]
  · show toInt16 (s1.touchY 1) = _
    rw [hY]
  · show s1.touchID 1 = _
    rw [hI]
  · show s1.event 1 = _
    rw [hE]
  · intro h
    show toInt16 (s1.touchX 1) = _
    rw [hX]
    exact toInt16_of_lt _ h
  · intro h
    show toInt16 (s1.touchY 1) = _
    rw [hY]
    exact toInt16_of_lt _ h
  · show s1.touchX 1 = _
    rw [hX]
  · show s1.touchY 1 = _
    rw [hY]
  · show s1.touchID 1 = _
    rw [hI]
  · show s1.event 1 = _
    rw [hE]

/-- C17 amended, on a controller whose slot 1 holds (902, 802, id 6, RELEASE)
while the bus reports one touch at (356, 712): `getPoint 1` returns the stale
slot, `(902, 802, 1, id 6, RELEASE)`. -/
theorem C17_getPoint_one_stale_witness :
    ∃ sA, getPoint (staleCtl oneTouch) 1 =
      some (sA, { x := 902, y := 802, z := 1, id := 6, event := Events.RELEASE }) := by
  obtain ⟨sA, p, hp, hz, hx, hy, hi, he, _⟩ := C17_getPoint_one_stale (staleCtl oneTouch)
    { staleCtl oneTouch with i2c_dev := some (polledDev oneTouch) } rfl
  refine ⟨sA, ?_⟩
  rw [hp]
  cases p
  simp only [Option.some.injEq, Prod.mk.injEq, TS_Point.mk.injEq, true_and]
  exact ⟨hx, hy, hz, hi, he⟩


/-! ### Checked indexing -/

theorem aget_none_of_ge {α : Type} (a : Fin MAX_TOUCHES → α) (i : Nat)
    (h : MAX_TOUCHES ≤ i) : aget a i = none := by
  have h2 : ¬ i < MAX_TOUCHES := by omega
  simp [aget, h2]

theorem aset_none_of_ge {α : Type} (a : Fin MAX_TOUCHES → α) (i : Nat) (v : α)
    (h : MAX_TOUCHES ≤ i) : aset a i v = none := by
  have h2 : ¬ i < MAX_TOUCHES := by omega
  simp [aset, h2]

theorem body_none_of_short (b : List Nat) (s : Adafruit_CST8XX) (i : Nat)
    (h : b.length ≤ i * 6) : readData.body b s i = none := by
  have h0 : b[i * 6]? = none := List.getElem?_eq_none h
  simp [readData.body, readData.bodyX, h0]

theorem body_isSome (b : List Nat) (s : Adafruit_CST8XX) (i : Nat)
    (hi : i < MAX_TOUCHES) (hlen : 6 * (i + 1) ≤ b.length) (hb : ∀ j, b.getD j 0 < 256) :
    (readData.body b s i).isSome = true := by
  unfold readData.body
  rw [bodyX_eq _ _ i hi hlen, bodyY_eq _ _ i hi hlen, bodyEvent_eq _ _ i hi hlen hb,
    bodyID_eq _ _ i hi hlen]
  rfl

theorem getPoint_reads_low_slot (s s' : Adafruit_CST8XX) (n : Nat)
    (hr : readData s = some s') :
    ∃ p, getPoint s n = some (s', p) ∧ (p.z ≠ 0 → n ≤ 1) := by
  by_cases h : s'.touches = 0 ∨ 1 < n
  · exact ⟨_, getPoint_null s s' n hr h, fun hz => absurd rfl hz⟩
  · have ht0 : s'.touches ≠ 0 := fun h0 => h (Or.inl h0)
    have hn1 : n ≤ 1 := by
      by_contra h1
      exact h (Or.inr (by omega))
    exact ⟨_, getPoint_slot s s' n hr ht0 hn1, fun _ => hn1⟩

/-- C18: on a controller bound to a device, for every count byte and every
data the bus delivers, `touched`, `readData` and `getPoint n` all return a
value, i.e. no checked access of the embedding fails.  In detail: the stored
count `c` is at most `MAX_TOUCHES`; the receive buffer has `6 * c` bytes; for
every `i < c` the largest buffer index used, `6 * i + 3`, is below the buffer
length, the array index `i` is below `MAX_TOUCHES`, and the loop body
succeeds from any state; and `getPoint` reads the arrays (z is nonzero) only
at an index `n <= 1`. -/
theorem C18_no_out_of_bounds (s : Adafruit_CST8XX) (dev : Adafruit_I2CDevice) (n : Nat)
    (hd : s.i2c_dev = some dev) :
    ∃ s1 c dev1 dev2 b sA p,
      touched s = some (s1, c) ∧ s1.i2c_dev = some dev1 ∧
      dev1.write_then_read [0x03] 1 (List.replicate (6 * c) 0) (6 * c) = (dev2, b) ∧
      readData s = some sA ∧ sA.touches = c ∧ c ≤ MAX_TOUCHES ∧ b.length = 6 * c ∧
      (∀ i, i < c → 6 * i + 3 < b.length ∧ i < MAX_TOUCHES ∧
        ∀ σ : Adafruit_CST8XX, (readData.body b σ i).isSome = true) ∧
      getPoint s n = some (sA, p) ∧ (p.z ≠ 0 → n ≤ 1 ∧ n < MAX_TOUCHES) := by
  obtain ⟨dev1, dev2, r, c, b, hr, hc, hb⟩ := exists_reads dev
  obtain ⟨ht, hrd, hlt, hlen, hc5⟩ :=
    readData_dev s dev dev1 dev2 r c _ b hd hr hc (by simp) hb
  have hc5b : c ≤ 5 := hc5
  obtain ⟨p, hp, hz⟩ := getPoint_reads_low_slot s _ n hrd
  refine ⟨_, c, dev1, dev2, b, _, p, ht, rfl, hb, hrd, rfl, hc5, hlen, ?_, hp, ?_⟩
  · intro i hi
    exact ⟨by omega, by omega, fun σ => body_isSome b σ i (by omega) (by omega) hlt⟩
  · intro h
    have h1 := hz h
    exact ⟨h1, Nat.lt_of_le_of_lt h1 (by decide)⟩

/-- C18 on a bus whose count byte is 200 (clamped to 0) and on one reporting
the full five touches: `getPoint` returns in both runs, with stored counts 0
and 5. -/
theorem C18_no_out_of_bounds_witness :
    (∃ s1 c dev1 dev2 b sA p,
      touched (staleCtl [[5], List.replicate 30 0xFF]) = some (s1, c) ∧
      s1.i2c_dev = some dev1 ∧
      dev1.write_then_read [0x03] 1 (List.replicate (6 * c) 0) (6 * c) = (dev2, b) ∧
      readData (staleCtl [[5], List.replicate 30 0xFF]) = some sA ∧ sA.touches = c ∧
      c ≤ MAX_TOUCHES ∧ b.length = 6 * c ∧
      (∀ i, i < c → 6 * i + 3 < b.length ∧ i < MAX_TOUCHES ∧
        ∀ σ : Adafruit_CST8XX, (readData.body b σ i).isSome = true) ∧
      getPoint (staleCtl [[5], List.replicate 30 0xFF]) 1 = some (sA, p) ∧
      (p.z ≠ 0 → 1 ≤ 1 ∧ 1 < MAX_TOUCHES)) ∧
    (getPoint (staleCtl [[5], List.replicate 30 0xFF]) 1).map (fun r => r.1.touches) = some 5 ∧
    (getPoint (staleCtl [[200]]) 1).map (fun r => r.1.touches) = some 0 :=
  ⟨C18_no_out_of_bounds (staleCtl [[5], List.replicate 30 0xFF])
    (scriptedDev true [[5], List.replicate 30 0xFF]) 1 rfl, by decide, by decide⟩


/-- What `readRegister16` does on a bound controller: one transaction that
writes the two bytes `reg, 0` and reads a single byte, which is returned with
a zero high byte. -/
theorem readRegister16_eq (s : Adafruit_CST8XX) (dev : Adafruit_I2CDevice) (reg : Nat)
    (hd : s.i2c_dev = some dev) :
    readRegister16 s reg =
      some ({ s with i2c_dev := some (dev.write_then_read [reg, 0] 2 [reg, 0] 1).1 },
        dev.wire.rx (dev.wire.log ++ [Txn.write_then_read dev.addr [reg, 0] 1]) 0 % 256) := by
  have hlt : dev.wire.rx (dev.wire.log ++ [Txn.write_then_read dev.addr [reg, 0] 1]) 0 % 256
      < 256 := Nat.mod_lt _ (by decide)
  have hm : dev.wire.rx (dev.wire.log ++ [Txn.write_then_read dev.addr [reg, 0] 1]) 0 % 256
      % 65536 = dev.wire.rx (dev.wire.log ++ [Txn.write_then_read dev.addr [reg, 0] 1]) 0 % 256 :=
    Nat.mod_eq_of_lt (by omega)
  simp [readRegister16, hd, Adafruit_I2CDevice.write_then_read, List.range_succ, hm]

/-- C19, the code at a failing input: the chip supplies `b0 = 0x34` and
`b1 = 0x12` for the read at register 0xAA.  `readRegister16` issues one
transaction that writes two bytes (`0xAA, 0x00`) and requests one byte, and
returns 0x34; the little-endian assembly of the two bytes would be 0x1234. -/
theorem C19_readRegister16_at_failing_input :
    (∀ t, (scriptedWire true [[0x34, 0x12]]).rx [t] 0 = 0x34 ∧
      (scriptedWire true [[0x34, 0x12]]).rx [t] 1 = 0x12) ∧
    (readRegister16 (staleCtl [[0x34, 0x12]]) 0xAA).map Prod.snd = some 0x34 ∧
    (readRegister16 (staleCtl [[0x34, 0x12]]) 0xAA).bind
        (fun r => r.1.i2c_dev.map (fun d => d.wire.log))
      = some [Txn.write_then_read 0x15 [0xAA, 0x00] 1] ∧
    (0x34 ||| (0x12 <<< 8) : Nat) = 0x1234 := by
  refine ⟨fun _ => ⟨rfl, rfl⟩, ?_, ?_, ?_⟩ <;> decide


end CST8XX
